import Mathlib

/-!
# AccelSensor (devkit8600/libsensors/AccelSensor.cpp)

A shallow embedding of the accelerometer shim: the control operations
`enable` and `setDelay`, the seeder `setInitialState` and the read loop
`readEvents`, as pure functions over an explicit sensor state.  Every call
takes the answers of the operating system (the descriptor returned by
`open`, the results of the axis queries, the outcomes of the reads on the
input descriptor, the current time) as arguments and returns, next to the
C return value and the new state, the list of system calls it performed.

The `float` components of a reading are kept in an arbitrary carrier `F`
with a commutative multiplication, a negation and a conversion from
integers; nothing else about floating point arithmetic is assumed.
-/

set_option linter.unusedSectionVars false

namespace Devkit8600

/-! ## Constants -/

/-- The default poll interval in milliseconds (`#define DEFAULT_POLL_INTERVAL 50`). -/
def DEFAULT_POLL_INTERVAL : Int := 50

/-- Event type of a synchronization marker (`EV_SYN` of `linux/input.h`). -/
def EV_SYN : Int := 0

/-- Event type of an absolute-axis update (`EV_ABS` of `linux/input.h`). -/
def EV_ABS : Int := 3

/-- The invalid-argument error number (`EINVAL` of `errno.h`). -/
def EINVAL : Int := 22

/-! ## Data model -/

/-- The time carried by an input event (`struct timeval`). -/
structure Timeval where
  tv_sec : Int
  tv_usec : Int
  deriving DecidableEq

/-- One raw record of the input device (`struct input_event`). -/
structure InputEvent where
  time : Timeval
  type : Int
  code : Int
  value : Int
  deriving DecidableEq

/-- The macros and the helper that `AccelSensor.cpp` takes from headers which
are not among the sources (`AccelSensor.h`, `sensors.h`, `SensorBase.h`):
the three axis codes, the three scale constants, the identity constants of a
reading and the conversion of an event time to nanoseconds. -/
structure Config (F : Type) where
  EVENT_TYPE_ACCEL_X : Int
  EVENT_TYPE_ACCEL_Y : Int
  EVENT_TYPE_ACCEL_Z : Int
  CONVERT_A_X : F
  CONVERT_A_Y : F
  CONVERT_A_Z : F
  sizeof_sensors_event_t : Int
  ID_A : Int
  SENSOR_TYPE_ACCELEROMETER : Int
  timevalToNano : Timeval → Int

/-- The three axis codes are pairwise different. -/
def Config.distinctCodes {F : Type} (cfg : Config F) : Prop :=
  cfg.EVENT_TYPE_ACCEL_X ≠ cfg.EVENT_TYPE_ACCEL_Y ∧
  cfg.EVENT_TYPE_ACCEL_X ≠ cfg.EVENT_TYPE_ACCEL_Z ∧
  cfg.EVENT_TYPE_ACCEL_Y ≠ cfg.EVENT_TYPE_ACCEL_Z

instance {F : Type} (cfg : Config F) : Decidable cfg.distinctCodes := by
  unfold Config.distinctCodes
  infer_instance

/-- A sensor reading (`sensors_event_t`); `data0`, `data1`, `data2` are
`data[0]`, `data[1]`, `data[2]`, the only components the sensor touches
after construction. -/
structure SensorsEvent (F : Type) where
  version : Int
  sensor : Int
  type : Int
  data0 : F
  data1 : F
  data2 : F
  timestamp : Int
  deriving DecidableEq

/-- The state of the sensor object: its members `mEnabled`, `mInputReader`
(the events buffered and not yet consumed, oldest first),
`mHasPendingEvent`, `mPendingEvent`, and the file-level variable
`prev_delay_ms` holding the remembered delay. -/
structure AccelSensor (F : Type) where
  mEnabled : Int
  mInputReader : List InputEvent
  mHasPendingEvent : Bool
  mPendingEvent : SensorsEvent F
  prev_delay_ms : Int
  deriving DecidableEq

/-- The system calls a call of the sensor performs, in order. -/
inductive SysCall where
  /-- Open of the control attribute, with the descriptor returned. -/
  | openPoll (fd : Int)
  /-- Query of one axis, with the code queried and whether it succeeded. -/
  | ioctlAbs (code : Int) (ok : Bool)
  /-- Write of the decimal text of `v` to the control attribute. -/
  | writePoll (v : Int)
  /-- Close of the control attribute. -/
  | closePoll
  /-- One fetch from the input descriptor into the reader, with its result. -/
  | fillReader (n : Int)
  /-- One reading of the clock. -/
  | getTimestamp
  deriving DecidableEq

/-- What a control call leaves behind: return value, state, system calls. -/
structure Outcome (F : Type) where
  ret : Int
  state : AccelSensor F
  trace : List SysCall
  deriving DecidableEq

/-- What `readEvents` leaves behind: return value, state, the output slots
written (`data[k]` is what slot `k` holds) and the system calls. -/
structure ReadOutcome (F : Type) where
  ret : Int
  state : AccelSensor F
  data : List (SensorsEvent F)
  trace : List SysCall
  deriving DecidableEq

/-- The answers of the three axis queries: the value reported, or `none`
when the query fails. -/
structure AbsQuery where
  x : Option Int
  y : Option Int
  z : Option Int
  deriving DecidableEq

/-- The outcome of one read on the input descriptor: an error code, or the
batch of events read. -/
inductive FetchResult where
  | failed (code : Int)
  | events (batch : List InputEvent)
  deriving DecidableEq

variable {F : Type} [CommMagma F] [Neg F] [IntCast F]

/-! ## Construction -/

/-- The state the constructor leaves: disabled, nothing buffered, no pending
seed, a zero vector; the timestamp is not set by the constructor and is
whatever `garbage` the memory held.  The remembered delay starts at `0`. -/
def AccelSensor.init [Zero F] (cfg : Config F) (garbage : Int) : AccelSensor F :=
  { mEnabled := 0
    mInputReader := []
    mHasPendingEvent := false
    mPendingEvent :=
      { version := cfg.sizeof_sensors_event_t
        sensor := cfg.ID_A
        type := cfg.SENSOR_TYPE_ACCELEROMETER
        data0 := 0
        data1 := 0
        data2 := 0
        timestamp := garbage }
    prev_delay_ms := 0 }

/-! ## Control operations -/

/-- The method `AccelSensor::setInitialState`: the three queries are made in the order
X, Y, Z and stop at the first failure; only when all three succeed is the
pending reading seeded. -/
def setInitialState (cfg : Config F) (s : AccelSensor F) (q : AbsQuery) : Outcome F :=
  match q.x with
  | none => ⟨0, s, [.ioctlAbs cfg.EVENT_TYPE_ACCEL_X false]⟩
  | some absinfo_x =>
    match q.y with
    | none => ⟨0, s, [.ioctlAbs cfg.EVENT_TYPE_ACCEL_X true,
                      .ioctlAbs cfg.EVENT_TYPE_ACCEL_Y false]⟩
    | some absinfo_y =>
      match q.z with
      | none => ⟨0, s, [.ioctlAbs cfg.EVENT_TYPE_ACCEL_X true,
                        .ioctlAbs cfg.EVENT_TYPE_ACCEL_Y true,
                        .ioctlAbs cfg.EVENT_TYPE_ACCEL_Z false]⟩
      | some absinfo_z =>
        ⟨0,
         { s with
           mPendingEvent :=
             { s.mPendingEvent with
               data0 := (absinfo_y : F) * cfg.CONVERT_A_X
               data1 := (absinfo_x : F) * cfg.CONVERT_A_Y
               data2 := (absinfo_z : F) * cfg.CONVERT_A_Z }
           mHasPendingEvent := true },
         [.ioctlAbs cfg.EVENT_TYPE_ACCEL_X true,
          .ioctlAbs cfg.EVENT_TYPE_ACCEL_Y true,
          .ioctlAbs cfg.EVENT_TYPE_ACCEL_Z true]⟩

/-- The method `AccelSensor::enable(int32_t, int en)`; `fd` is what `open` returns for
the control attribute when the call opens it. -/
def enable (cfg : Config F) (s : AccelSensor F) (_handle : Int) (en : Int)
    (fd : Int) (q : AbsQuery) : Outcome F :=
  let flags : Int := if en ≠ 0 then 1 else 0
  if flags ≠ s.mEnabled then
    if fd ≥ 0 then
      if flags ≠ 0 then
        let delay : Int :=
          if s.prev_delay_ms ≠ 0 then s.prev_delay_ms else DEFAULT_POLL_INTERVAL
        let r := setInitialState cfg { s with prev_delay_ms := delay } q
        ⟨0, { r.state with mEnabled := flags },
          [.openPoll fd] ++ r.trace ++ [.writePoll delay, .closePoll]⟩
      else
        ⟨0, { s with mEnabled := flags }, [.openPoll fd, .writePoll 0, .closePoll]⟩
    else
      ⟨-1, s, [.openPoll fd]⟩
  else
    ⟨0, s, []⟩

/-- The method `AccelSensor::hasPendingEvents`. -/
def hasPendingEvents (s : AccelSensor F) : Bool :=
  s.mHasPendingEvent

/-- The conversion `(int32_t)x` of a 64-bit value: the low 32 bits, read
as a signed number. -/
def toInt32 (x : Int) : Int :=
  (x + 2147483648) % 4294967296 - 2147483648

/-- The expression `(int32_t)delay_ns/1000000` of `setDelay`: the cast
binds tighter than the division, which truncates toward zero. -/
def delayMs (delay_ns : Int) : Int :=
  (toInt32 delay_ns).tdiv 1000000

/-- The method `AccelSensor::setDelay(int32_t handle, int64_t delay_ns)`; `fd` is what
`open` returns for the control attribute when the call opens it. -/
def setDelay (s : AccelSensor F) (_handle : Int) (delay_ns : Int) (fd : Int) : Outcome F :=
  if s.mEnabled = 0 then
    let delay_ms := delayMs delay_ns
    ⟨0, { s with prev_delay_ms := delay_ms }, []⟩
  else if fd ≥ 0 then
    let delay_ms := delayMs delay_ns
    ⟨0, { s with prev_delay_ms := delay_ms },
      [.openPoll fd, .writePoll delay_ms, .closePoll]⟩
  else
    ⟨-1, s, [.openPoll fd]⟩

/-! ## The read path -/

/-- Modelled from the spec: the fetch of the event-queue reader
(`mInputReader.fill`), whose class is not among the sources.  A failed fetch
returns its negative code and buffers nothing; a successful one appends the
batch read to the buffered events and returns its length. -/
def fill (buffered : List InputEvent) : FetchResult → Int × List InputEvent
  | .failed code => (code, buffered)
  | .events batch => (batch.length, buffered ++ batch)

/-- The local variables of `readEvents` while it drains: the sensor, the
remaining capacity `count`, the output slots written through the cursor
`data`, and `numEventReceived`. -/
structure ReadLoop (F : Type) where
  self : AccelSensor F
  count : Int
  data : List (SensorsEvent F)
  numEventReceived : Int
  deriving DecidableEq

/-- The body of the `while` loop of `readEvents` for one buffered event
(the closing `mInputReader.next()` is done by `whileLoop`). -/
def loopBody (cfg : Config F) (event : InputEvent) (st : ReadLoop F) : ReadLoop F :=
  let pending := st.self.mPendingEvent
  if event.type = EV_ABS then
    let value : F := (event.value : F)
    if event.code = cfg.EVENT_TYPE_ACCEL_Y then
      { st with self := { st.self with
          mPendingEvent := { pending with data0 := value * cfg.CONVERT_A_Y } } }
    else if event.code = cfg.EVENT_TYPE_ACCEL_X then
      { st with self := { st.self with
          mPendingEvent := { pending with data1 := -(value * cfg.CONVERT_A_X) } } }
    else if event.code = cfg.EVENT_TYPE_ACCEL_Z then
      { st with self := { st.self with
          mPendingEvent := { pending with data2 := value * cfg.CONVERT_A_Z } } }
    else
      st
  else if event.type = EV_SYN then
    let stamped : SensorsEvent F :=
      { pending with timestamp := cfg.timevalToNano event.time }
    let self1 : AccelSensor F := { st.self with mPendingEvent := stamped }
    if self1.mEnabled ≠ 0 then
      { self := self1
        count := st.count - 1
        data := st.data ++ [stamped]
        numEventReceived := st.numEventReceived + 1 }
    else
      { st with self := self1 }
  else
    st

/-- The loop `while (count && mInputReader.readEvent(&event)) { ... next(); }`
over the buffered events; it returns the locals with the events left
unconsumed put back as the reader's buffer. -/
def whileLoop (cfg : Config F) : List InputEvent → ReadLoop F → ReadLoop F
  | [], st => { st with self := { st.self with mInputReader := [] } }
  | event :: rest, st =>
    if st.count ≠ 0 then
      whileLoop cfg rest (loopBody cfg event st)
    else
      { st with self := { st.self with mInputReader := event :: rest } }

/-- The code of `readEvents` from the label `again` on: drain, then, when
nothing was emitted and the sensor is enabled, fetch once more and jump back
when the fetch returned anything but `0`.  `fetches` lists the outcomes of
the reads still to come on the descriptor; the result is `none` when the
call asks for more reads than the list holds. -/
def again (cfg : Config F) :
    List FetchResult → ReadLoop F → List SysCall → Option (ReadOutcome F)
  | [], st, trace =>
    let st1 := whileLoop cfg st.self.mInputReader st
    if st1.numEventReceived = 0 ∧ st1.self.mEnabled = 1 then
      none
    else
      some ⟨st1.numEventReceived, st1.self, st1.data, trace⟩
  | f :: rest, st, trace =>
    let st1 := whileLoop cfg st.self.mInputReader st
    if st1.numEventReceived = 0 ∧ st1.self.mEnabled = 1 then
      let r := fill st1.self.mInputReader f
      let st2 : ReadLoop F := { st1 with self := { st1.self with mInputReader := r.2 } }
      if r.1 ≠ 0 then
        again cfg rest st2 (trace ++ [.fillReader r.1])
      else
        some ⟨st2.numEventReceived, st2.self, st2.data, trace ++ [.fillReader r.1]⟩
    else
      some ⟨st1.numEventReceived, st1.self, st1.data, trace⟩

/-- The method `AccelSensor::readEvents(sensors_event_t* data, int count)`; `now` is
what `getTimestamp` returns and `fetches` lists the outcomes of the
successive reads on the input descriptor. -/
def readEvents (cfg : Config F) (s : AccelSensor F) (count : Int) (now : Int)
    (fetches : List FetchResult) : Option (ReadOutcome F) :=
  if count < 1 then
    some ⟨-EINVAL, s, [], []⟩
  else if s.mHasPendingEvent then
    let s1 : AccelSensor F :=
      { s with
        mHasPendingEvent := false
        mPendingEvent := { s.mPendingEvent with timestamp := now } }
    some ⟨if s1.mEnabled ≠ 0 then 1 else 0, s1, [s1.mPendingEvent], [.getTimestamp]⟩
  else
    match fetches with
    | [] => none
    | f :: rest =>
      let r := fill s.mInputReader f
      let s1 : AccelSensor F := { s with mInputReader := r.2 }
      if r.1 < 0 then
        some ⟨r.1, s1, [], [.fillReader r.1]⟩
      else
        again cfg rest ⟨s1, count, [], 0⟩ [.fillReader r.1]

/-! ## Notions used to state the properties -/

/-- The value of the last axis update for code `c` among `evs`, if there
is one. -/
def lastValue (c : Int) : List InputEvent → Option Int
  | [] => none
  | e :: es =>
    match lastValue c es with
    | some v => some v
    | none => if e.type = EV_ABS ∧ e.code = c then some e.value else none

/-- The pending reading `p` after the axis updates among `evs`: component 0
is the last Y value scaled by the Y constant, component 1 the negated last X
value scaled by the X constant, component 2 the last Z value scaled by the Z
constant; a component whose axis was not updated is kept. -/
def accumulated (cfg : Config F) (evs : List InputEvent) (p : SensorsEvent F) :
    SensorsEvent F :=
  { p with
    data0 :=
      match lastValue cfg.EVENT_TYPE_ACCEL_Y evs with
      | some v => cfg.CONVERT_A_Y * (v : F)
      | none => p.data0
    data1 :=
      match lastValue cfg.EVENT_TYPE_ACCEL_X evs with
      | some v => -(cfg.CONVERT_A_X * (v : F))
      | none => p.data1
    data2 :=
      match lastValue cfg.EVENT_TYPE_ACCEL_Z evs with
      | some v => cfg.CONVERT_A_Z * (v : F)
      | none => p.data2 }

/-- The values written to the control attribute by a list of system calls,
in order. -/
def writes : List SysCall → List Int
  | [] => []
  | .writePoll v :: t => v :: writes t
  | .openPoll _ :: t => writes t
  | .ioctlAbs _ _ :: t => writes t
  | .closePoll :: t => writes t
  | .fillReader _ :: t => writes t
  | .getTimestamp :: t => writes t

/-- The number of fetches from the input descriptor in a list of system
calls. -/
def fetchCount : List SysCall → Nat
  | [] => 0
  | .fillReader _ :: t => fetchCount t + 1
  | .writePoll _ :: t => fetchCount t
  | .openPoll _ :: t => fetchCount t
  | .ioctlAbs _ _ :: t => fetchCount t
  | .closePoll :: t => fetchCount t
  | .getTimestamp :: t => fetchCount t

/-- Whether a system call is an axis query. -/
def SysCall.isQuery : SysCall → Bool
  | .ioctlAbs _ _ => true
  | _ => false

/-- The states the sensor can be in: the state after construction, and every
state that a call of `enable`, `setDelay` or `readEvents` leaves, with any
arguments and any answers of the operating system. -/
inductive Reachable [Zero F] (cfg : Config F) : AccelSensor F → Prop where
  | init (garbage : Int) : Reachable cfg (AccelSensor.init cfg garbage)
  | enable {s : AccelSensor F} (handle en fd : Int) (q : AbsQuery) :
      Reachable cfg s → Reachable cfg (enable cfg s handle en fd q).state
  | setDelay {s : AccelSensor F} (handle delay_ns fd : Int) :
      Reachable cfg s → Reachable cfg (setDelay s handle delay_ns fd).state
  | readEvents {s : AccelSensor F} (count now : Int) (fetches : List FetchResult)
      (r : ReadOutcome F) :
      Reachable cfg s → readEvents cfg s count now fetches = some r →
      Reachable cfg r.state

/-- The number of synchronization markers among `evs`. -/
def markerCount : List InputEvent → Nat
  | [] => 0
  | e :: es => if e.type = EV_SYN then markerCount es + 1 else markerCount es

/-- The events of `evs` up to and including marker number `k`, the first
marker having number 0; all of `evs` when it holds no such marker. -/
def throughMarker : Nat → List InputEvent → List InputEvent
  | _, [] => []
  | k, e :: es =>
    if e.type = EV_SYN then
      match k with
      | 0 => [e]
      | j + 1 => e :: throughMarker j es
    else
      e :: throughMarker k es

/-- The events of `evs` that follow marker number `k`; none when `evs` holds
no such marker. -/
def afterMarker : Nat → List InputEvent → List InputEvent
  | _, [] => []
  | k, e :: es =>
    if e.type = EV_SYN then
      match k with
      | 0 => es
      | j + 1 => afterMarker j es
    else
      afterMarker k es

/-- Marker number `k` of `evs`, if there is one. -/
def nthMarker : Nat → List InputEvent → Option InputEvent
  | _, [] => none
  | k, e :: es =>
    if e.type = EV_SYN then
      match k with
      | 0 => some e
      | j + 1 => nthMarker j es
    else
      nthMarker k es

/-- The timestamp of the pending reading after the events `evs`: the time of
the last marker among them converted to nanoseconds, or the old timestamp
`t` when there is no marker. -/
def stamp (cfg : Config F) : List InputEvent → Int → Int
  | [], t => t
  | e :: es, t => stamp cfg es (if e.type = EV_SYN then cfg.timevalToNano e.time else t)

/-- The pending reading `p` after the events `evs`: the vector accumulated
from the axis updates, stamped by the last marker. -/
def pendingAfter (cfg : Config F) (evs : List InputEvent) (p : SensorsEvent F) :
    SensorsEvent F :=
  { accumulated cfg evs p with timestamp := stamp cfg evs p.timestamp }

/-- The reading expected in output slot `k` when the drain starts from the
pending reading `p` over the events `evs`: the vector accumulated from all
axis updates up to marker number `k`, with that marker's time converted to
nanoseconds. -/
def slotAt (cfg : Config F) (evs : List InputEvent) (p : SensorsEvent F) (k : Nat) :
    SensorsEvent F :=
  { accumulated cfg (throughMarker k evs) p with
    timestamp :=
      match nthMarker k evs with
      | some marker => cfg.timevalToNano marker.time
      | none => p.timestamp }

/-! ## Concrete data for the examples -/

/-- A configuration over the integers with unit scale constants, the axis
codes `ABS_X = 0`, `ABS_Y = 1`, `ABS_Z = 2`, and the usual conversion of a
`timeval` to nanoseconds. -/
def unitConfig : Config Int :=
  { EVENT_TYPE_ACCEL_X := 0
    EVENT_TYPE_ACCEL_Y := 1
    EVENT_TYPE_ACCEL_Z := 2
    CONVERT_A_X := 1
    CONVERT_A_Y := 1
    CONVERT_A_Z := 1
    sizeof_sensors_event_t := 104
    ID_A := 0
    SENSOR_TYPE_ACCELEROMETER := 1
    timevalToNano := fun t => t.tv_sec * 1000000000 + t.tv_usec * 1000 }

/-- An axis update for `code` with `value`. -/
def absEvent (code value : Int) : InputEvent :=
  { time := ⟨0, 0⟩, type := EV_ABS, code := code, value := value }

/-- A synchronization marker carrying the time `sec` seconds. -/
def synEvent (sec : Int) : InputEvent :=
  { time := ⟨sec, 0⟩, type := EV_SYN, code := 0, value := 0 }

/-- The sensor right after construction. -/
def freshState : AccelSensor Int :=
  AccelSensor.init unitConfig 0

/-- The sensor after a first `enable(0, 1)` whose axis queries fail, so that
no seed is pending. -/
def enabledState : AccelSensor Int :=
  (enable unitConfig freshState 0 1 3 ⟨none, none, none⟩).state

/-- The sensor after a first `enable(0, 1)` whose axis queries report 1, 2
and 3: enabled, with a seed pending. -/
def seededState : AccelSensor Int :=
  (enable unitConfig freshState 0 1 3 ⟨some 1, some 2, some 3⟩).state

/-- The enabled sensor after a `readEvents` of capacity `1` that fetched two
markers: the second marker is left in the reader. -/
def leftoverState : AccelSensor Int :=
  match readEvents unitConfig enabledState 1 0 [.events [synEvent 1, synEvent 2]] with
  | some r => r.state
  | none => enabledState

/-- The disabled sensor after `setDelay(0, -5000000)`. -/
def negativeDelayState : AccelSensor Int :=
  (setDelay freshState 0 (-5000000) 3).state

/-- A configuration over the integers with the scale constants 10, 100 and
1000 for X, Y and Z, otherwise as `unitConfig`. -/
def scaledConfig : Config Int :=
  { unitConfig with CONVERT_A_X := 10, CONVERT_A_Y := 100, CONVERT_A_Z := 1000 }

/-- The enabled sensor of `enabledState` turned off again: disabled, with the
remembered delay 50. -/
def disabledState : AccelSensor Int :=
  (enable unitConfig enabledState 0 0 3 ⟨none, none, none⟩).state

/-! ## Auxiliary facts -/

theorem accumulated_nil (cfg : Config F) (p : SensorsEvent F) :
    accumulated cfg [] p = p := by
  cases p; rfl

theorem writes_append (a b : List SysCall) : writes (a ++ b) = writes a ++ writes b := by
  induction a with
  | nil => rfl
  | cons c t ih => cases c <;> simp [writes, ih]

theorem fetchCount_append (a b : List SysCall) :
    fetchCount (a ++ b) = fetchCount a + fetchCount b := by
  induction a with
  | nil => simp [fetchCount]
  | cons c t ih => cases c <;> simp [fetchCount, ih]; omega

/-- An event that is not a marker changes neither the capacity left, nor the
output, nor the count of readings, nor any member but the pending reading. -/
theorem loopBody_of_not_syn (cfg : Config F) (e : InputEvent) (st : ReadLoop F)
    (he : e.type ≠ EV_SYN) :
    (loopBody cfg e st).count = st.count ∧ (loopBody cfg e st).data = st.data ∧
    (loopBody cfg e st).numEventReceived = st.numEventReceived ∧
    (loopBody cfg e st).self.mEnabled = st.self.mEnabled ∧
    (loopBody cfg e st).self.mHasPendingEvent = st.self.mHasPendingEvent ∧
    (loopBody cfg e st).self.prev_delay_ms = st.self.prev_delay_ms := by
  unfold loopBody
  simp only [he, if_false]
  split_ifs <;> simp

/-- Draining axis updates only moves the pending reading to `accumulated`. -/
theorem whileLoop_updates (cfg : Config F) (hcodes : cfg.distinctCodes)
    (tl : List InputEvent) :
    ∀ (updates : List InputEvent) (st : ReadLoop F),
      (∀ e ∈ updates, e.type = EV_ABS) → st.count ≠ 0 →
      whileLoop cfg (updates ++ tl) st =
        whileLoop cfg tl
          { st with self := { st.self with
              mPendingEvent := accumulated cfg updates st.self.mPendingEvent } } := by
  intro updates
  induction updates with
  | nil =>
    intro st _ _
    simp [accumulated_nil]
  | cons e es ih =>
    intro st habs hcount
    have he : e.type = EV_ABS := habs e (by simp)
    have hne : e.type ≠ EV_SYN := by rw [he]; decide
    have hes : ∀ x ∈ es, x.type = EV_ABS := fun x hx => habs x (by simp [hx])
    obtain ⟨hc, -, -, -, -, -⟩ := loopBody_of_not_syn cfg e st hne
    have hcount1 : (loopBody cfg e st).count ≠ 0 := by rw [hc]; exact hcount
    have hstep : whileLoop cfg (e :: es ++ tl) st =
        whileLoop cfg (es ++ tl) (loopBody cfg e st) := by
      rw [List.cons_append, whileLoop, if_pos hcount]
    rw [hstep, ih (loopBody cfg e st) hes hcount1]
    congr 1
    obtain ⟨hxy, hxz, hyz⟩ := hcodes
    unfold loopBody accumulated
    simp only [he, if_true, lastValue, true_and]
    rcases hY : lastValue cfg.EVENT_TYPE_ACCEL_Y es with _ | vy <;>
    rcases hX : lastValue cfg.EVENT_TYPE_ACCEL_X es with _ | vx <;>
    rcases hZ : lastValue cfg.EVENT_TYPE_ACCEL_Z es with _ | vz <;>
    by_cases h1 : e.code = cfg.EVENT_TYPE_ACCEL_Y <;>
    by_cases h2 : e.code = cfg.EVENT_TYPE_ACCEL_X <;>
    by_cases h3 : e.code = cfg.EVENT_TYPE_ACCEL_Z <;>
    simp_all [mul_comm]

/-- A marker met with capacity left, while enabled, stamps the pending
reading and copies it to the next output slot. -/
theorem whileLoop_marker (cfg : Config F) (marker : InputEvent) (st : ReadLoop F)
    (hsyn : marker.type = EV_SYN) (hcount : st.count ≠ 0) (hen : st.self.mEnabled ≠ 0) :
    whileLoop cfg [marker] st =
      { self := { st.self with
          mInputReader := []
          mPendingEvent :=
            { st.self.mPendingEvent with timestamp := cfg.timevalToNano marker.time } }
        count := st.count - 1
        data := st.data ++
          [{ st.self.mPendingEvent with timestamp := cfg.timevalToNano marker.time }]
        numEventReceived := st.numEventReceived + 1 } := by
  have hne : EV_SYN ≠ EV_ABS := by decide
  simp [whileLoop, loopBody, hsyn, hcount, hen, hne]

/-- Once the drain has emitted a reading, no further fetch is made. -/
theorem again_of_emitted (cfg : Config F) (fetches : List FetchResult) (st : ReadLoop F)
    (trace : List SysCall)
    (h : (whileLoop cfg st.self.mInputReader st).numEventReceived ≠ 0) :
    again cfg fetches st trace =
      some ⟨(whileLoop cfg st.self.mInputReader st).numEventReceived,
            (whileLoop cfg st.self.mInputReader st).self,
            (whileLoop cfg st.self.mInputReader st).data, trace⟩ := by
  cases fetches <;> simp [again, h]

/-- The seeder touches neither the enabled flag, nor the remembered delay,
nor the reader, returns `0`, writes nothing, and makes between one and three
axis queries and no other system call. -/
theorem setInitialState_frame (cfg : Config F) (s : AccelSensor F) (q : AbsQuery) :
    (setInitialState cfg s q).ret = 0 ∧
    (setInitialState cfg s q).state.mEnabled = s.mEnabled ∧
    (setInitialState cfg s q).state.prev_delay_ms = s.prev_delay_ms ∧
    (setInitialState cfg s q).state.mInputReader = s.mInputReader ∧
    writes (setInitialState cfg s q).trace = [] ∧
    (setInitialState cfg s q).trace ≠ [] ∧
    (∀ c ∈ (setInitialState cfg s q).trace, c.isQuery = true) := by
  unfold setInitialState
  rcases q with ⟨_ | x, _ | y, _ | z⟩ <;> simp [writes, SysCall.isQuery]

/-- For a delay below `2^31` nanoseconds the cast loses nothing and the
stored value is the delay in whole milliseconds. -/
theorem delayMs_of_lt (delay_ns : Int) (h0 : 0 ≤ delay_ns) (h1 : delay_ns < 2147483648) :
    delayMs delay_ns = delay_ns / 1000000 := by
  have hc : toInt32 delay_ns = delay_ns := by unfold toInt32; omega
  unfold delayMs
  rw [hc, Int.tdiv_eq_ediv h0 (by decide)]

/-- The call `enable` with the requested state equal to the current one. -/
theorem enable_of_same (cfg : Config F) (s : AccelSensor F) (handle en fd : Int)
    (q : AbsQuery) (h : (if en ≠ 0 then (1 : Int) else 0) = s.mEnabled) :
    enable cfg s handle en fd q = ⟨0, s, []⟩ := by
  unfold enable
  simp [h]

/-- The call `enable` requesting a change when the control attribute does not open. -/
theorem enable_of_open_failed (cfg : Config F) (s : AccelSensor F) (handle en fd : Int)
    (q : AbsQuery) (h : (if en ≠ 0 then (1 : Int) else 0) ≠ s.mEnabled) (hfd : fd < 0) :
    enable cfg s handle en fd q = ⟨-1, s, [.openPoll fd]⟩ := by
  have hfd1 : ¬ fd ≥ 0 := by omega
  unfold enable
  simp only [ne_eq, ite_not] at h ⊢
  simp [h, hfd1]

/-- The call `enable` turning a disabled sensor on. -/
theorem enable_on (cfg : Config F) (s : AccelSensor F) (handle en fd : Int)
    (q : AbsQuery) (hdis : s.mEnabled = 0) (hen : en ≠ 0) (hfd : 0 ≤ fd) :
    enable cfg s handle en fd q =
      ⟨0,
       { (setInitialState cfg { s with prev_delay_ms :=
            if s.prev_delay_ms ≠ 0 then s.prev_delay_ms else DEFAULT_POLL_INTERVAL } q).state
         with mEnabled := 1 },
       [.openPoll fd] ++
         (setInitialState cfg { s with prev_delay_ms :=
            if s.prev_delay_ms ≠ 0 then s.prev_delay_ms else DEFAULT_POLL_INTERVAL } q).trace ++
         [.writePoll
            (if s.prev_delay_ms ≠ 0 then s.prev_delay_ms else DEFAULT_POLL_INTERVAL),
          .closePoll]⟩ := by
  unfold enable
  simp [hdis, hen, hfd]

/-- The call `enable` turning an enabled sensor off. -/
theorem enable_off (cfg : Config F) (s : AccelSensor F) (handle fd : Int)
    (q : AbsQuery) (hon : s.mEnabled ≠ 0) (hfd : 0 ≤ fd) :
    enable cfg s handle 0 fd q =
      ⟨0, { s with mEnabled := 0 }, [.openPoll fd, .writePoll 0, .closePoll]⟩ := by
  unfold enable
  simp [Ne.symm hon, hfd]

theorem fetchCount_map_fill (mids : List (List InputEvent)) :
    fetchCount (mids.map (fun b => SysCall.fillReader b.length)) = mids.length := by
  induction mids with
  | nil => rfl
  | cons b bs ih => simp [fetchCount, ih]

/-- Draining events none of which is a marker empties the reader and leaves
the capacity, the output, the count of readings and every member but the
pending reading as they were. -/
theorem whileLoop_of_no_marker (cfg : Config F) :
    ∀ (evs : List InputEvent) (st : ReadLoop F),
      (∀ e ∈ evs, e.type ≠ EV_SYN) → st.count ≠ 0 →
      (whileLoop cfg evs st).count = st.count ∧
      (whileLoop cfg evs st).data = st.data ∧
      (whileLoop cfg evs st).numEventReceived = st.numEventReceived ∧
      (whileLoop cfg evs st).self.mEnabled = st.self.mEnabled ∧
      (whileLoop cfg evs st).self.mHasPendingEvent = st.self.mHasPendingEvent ∧
      (whileLoop cfg evs st).self.prev_delay_ms = st.self.prev_delay_ms ∧
      (whileLoop cfg evs st).self.mInputReader = [] := by
  intro evs
  induction evs with
  | nil =>
    intro st _ _
    simp [whileLoop]
  | cons e es ih =>
    intro st hev hcount
    have he : e.type ≠ EV_SYN := hev e (by simp)
    have hes : ∀ x ∈ es, x.type ≠ EV_SYN := fun x hx => hev x (by simp [hx])
    obtain ⟨hc, hd, hn, hen, hp, hdl⟩ := loopBody_of_not_syn cfg e st he
    have hcount1 : (loopBody cfg e st).count ≠ 0 := by rw [hc]; exact hcount
    obtain ⟨ic, id', inn, ien, ip, idl, ir⟩ := ih (loopBody cfg e st) hes hcount1
    rw [whileLoop, if_pos hcount]
    exact ⟨ic.trans hc, id'.trans hd, inn.trans hn, ien.trans hen, ip.trans hp,
      idl.trans hdl, ir⟩

/-- From the label `again`, with nothing emitted yet and the sensor enabled:
marker-free buffered events, then non-empty marker-free re-fetched batches,
then an empty batch, lead to the return value 0 after one fetch per batch. -/
theorem again_of_marker_free (cfg : Config F) (rest : List FetchResult) :
    ∀ (mids : List (List InputEvent)) (st : ReadLoop F) (trace : List SysCall),
      st.count ≠ 0 → st.numEventReceived = 0 → st.self.mEnabled = 1 →
      (∀ e ∈ st.self.mInputReader, e.type ≠ EV_SYN) →
      (∀ b ∈ mids, b ≠ [] ∧ ∀ e ∈ b, e.type ≠ EV_SYN) →
      ∃ r, again cfg (mids.map FetchResult.events ++ .events [] :: rest) st trace = some r ∧
        r.ret = 0 ∧ r.data = st.data ∧
        r.trace = trace ++
          (mids.map (fun b => SysCall.fillReader b.length) ++ [.fillReader 0]) ∧
        r.state.mEnabled = 1 ∧ r.state.mInputReader = [] ∧
        r.state.mHasPendingEvent = st.self.mHasPendingEvent ∧
        r.state.prev_delay_ms = st.self.prev_delay_ms := by
  intro mids
  induction mids with
  | nil =>
    intro st trace hcount hnum hen hbuf _
    obtain ⟨-, hd, hn, he, hp, hdl, hr⟩ :=
      whileLoop_of_no_marker cfg st.self.mInputReader st hbuf hcount
    rw [hnum] at hn
    rw [hen] at he
    simp [again, hn, he, fill, hd, hp, hdl, hr]
  | cons b bs ih =>
    intro st trace hcount hnum hen hbuf hmids
    obtain ⟨hc, hd, hn, he, hp, hdl, hr⟩ :=
      whileLoop_of_no_marker cfg st.self.mInputReader st hbuf hcount
    rw [hnum] at hn
    rw [hen] at he
    have hb : b ≠ [] := (hmids b (by simp)).1
    have hbs : ∀ e ∈ b, e.type ≠ EV_SYN := (hmids b (by simp)).2
    have hrest : ∀ x ∈ bs, x ≠ [] ∧ ∀ e ∈ x, e.type ≠ EV_SYN :=
      fun x hx => hmids x (by simp [hx])
    obtain ⟨r, hr1, h1, h2, h3, h4, h5, h6, h7⟩ :=
      ih { whileLoop cfg st.self.mInputReader st with
            self := { (whileLoop cfg st.self.mInputReader st).self with
              mInputReader := (whileLoop cfg st.self.mInputReader st).self.mInputReader ++ b } }
        (trace ++ [.fillReader b.length]) (by simpa [hc] using hcount) hn he
        (by simpa [hr] using hbs) hrest
    refine ⟨r, ?_, h1, by simpa [hd] using h2, by simpa using h3, h4, h5,
      by simpa [hp] using h6, by simpa [hdl] using h7⟩
    have hlen : (b.length : Int) ≠ 0 := by
      have : b.length ≠ 0 := by simpa using hb
      exact_mod_cast this
    rw [List.map_cons, List.cons_append, again]
    dsimp only [fill]
    rw [if_pos ⟨hn, he⟩, if_pos hlen]
    exact hr1

/-! ## Properties of the sensor -/

/-- C1 (amended): while the sensor is enabled with no pending seed and the
capacity is at least 1, if the events the reader holds after the fetch (those
left unconsumed by earlier calls followed by the fetched batch) are axis
updates followed by exactly one synchronization marker, then `readEvents`
returns 1 after that single fetch, and the one reading written has the vector
(cY * lastY, -(cX * lastX), cZ * lastZ) of the last values per axis among
these updates (a component whose axis was not updated is kept) and the
marker's time converted to nanoseconds. -/
theorem C1_readEvents_single_marker (cfg : Config F) (s : AccelSensor F)
    (count now : Int) (batch updates : List InputEvent) (marker : InputEvent)
    (rest : List FetchResult)
    (hcodes : cfg.distinctCodes)
    (hen : s.mEnabled ≠ 0) (hpend : s.mHasPendingEvent = false) (hcount : 1 ≤ count)
    (hupd : ∀ e ∈ updates, e.type = EV_ABS) (hsyn : marker.type = EV_SYN)
    (hbuf : s.mInputReader ++ batch = updates ++ [marker]) :
    readEvents cfg s count now (.events batch :: rest) =
      some
        { ret := 1
          state := { s with
            mInputReader := []
            mPendingEvent :=
              { accumulated cfg updates s.mPendingEvent with
                timestamp := cfg.timevalToNano marker.time } }
          data := [{ accumulated cfg updates s.mPendingEvent with
                      timestamp := cfg.timevalToNano marker.time }]
          trace := [.fillReader batch.length] } := by
  have hc0 : count ≠ 0 := by omega
  have hc1 : ¬ count < 1 := by omega
  have hlen : ¬ ((batch.length : Int) < 0) := by omega
  have hloop : whileLoop cfg (s.mInputReader ++ batch)
      ⟨{ s with mInputReader := s.mInputReader ++ batch }, count, [], 0⟩ =
      { self := { s with
          mInputReader := []
          mPendingEvent :=
            { accumulated cfg updates s.mPendingEvent with
              timestamp := cfg.timevalToNano marker.time } }
        count := count - 1
        data := [{ accumulated cfg updates s.mPendingEvent with
                    timestamp := cfg.timevalToNano marker.time }]
        numEventReceived := 1 } := by
    rw [hbuf, whileLoop_updates cfg hcodes [marker] updates _ hupd hc0,
      whileLoop_marker cfg marker _ hsyn hc0 hen]
    simp
  unfold readEvents
  simp only [hc1, if_false, hpend, fill, hlen]
  simp only [hpend] at hloop
  rw [again_of_emitted] <;> simp [hloop]

/-- C1, the scenario of the specification: X=100, Y=200, Z=300 and a marker
at 7 s, with unit scale constants, give the reading (200, -100, 300) stamped
7000000000 ns. -/
theorem C1_readEvents_single_marker_witness :
    unitConfig.distinctCodes ∧ enabledState.mEnabled ≠ 0 ∧
    enabledState.mHasPendingEvent = false ∧
    readEvents unitConfig enabledState 1 0
        [.events [absEvent 0 100, absEvent 1 200, absEvent 2 300, synEvent 7]] =
      some
        { ret := 1
          state := { enabledState with
            mPendingEvent := ⟨104, 0, 1, 200, -100, 300, 7000000000⟩ }
          data := [⟨104, 0, 1, 200, -100, 300, 7000000000⟩]
          trace := [.fillReader 4] } :=
  ⟨by decide, by decide, by decide,
   (C1_readEvents_single_marker unitConfig enabledState 1 0
      [absEvent 0 100, absEvent 1 200, absEvent 2 300, synEvent 7]
      [absEvent 0 100, absEvent 1 200, absEvent 2 300] (synEvent 7) []
      (by decide) (by decide) (by decide) (by decide) (by decide) (by decide)
      (by decide)).trans (by decide)⟩

/-- C1 as stated fails when an earlier call left a marker in the reader:
from the enabled state, a `readEvents` of capacity 1 that fetched two markers
leaves the second one buffered; the next call, of capacity 2, fetches a batch
of one axis update and one marker, so that the reader holds three events,
fewer than the four that `mInputReader(4)` takes, and returns 2, not 1. -/
theorem C1_counterexample :
    readEvents unitConfig enabledState 1 0 [.events [synEvent 1, synEvent 2]] =
      some ⟨1, leftoverState, [⟨104, 0, 1, 0, 0, 0, 1000000000⟩], [.fillReader 2]⟩ ∧
    leftoverState.mEnabled = 1 ∧ leftoverState.mHasPendingEvent = false ∧
    leftoverState.mInputReader = [synEvent 2] ∧
    (leftoverState.mInputReader ++ [absEvent 0 100, synEvent 7]).length = 3 ∧
    readEvents unitConfig leftoverState 2 0 [.events [absEvent 0 100, synEvent 7]] =
      some
        { ret := 2
          state := { enabledState with
            mPendingEvent := ⟨104, 0, 1, 0, -100, 0, 7000000000⟩ }
          data := [⟨104, 0, 1, 0, 0, 0, 2000000000⟩,
                   ⟨104, 0, 1, 0, -100, 0, 7000000000⟩]
          trace := [.fillReader 2] } := by
  decide

/-- C2: at `delay_ns = 5000000000` (five seconds, 5000 whole milliseconds)
`setDelay` remembers 705 in the disabled branch, and remembers and writes 705
in the enabled branch: the cast to 32 bits is applied before the division. -/
theorem C2_setDelay_casts_before_dividing :
    (5000000000 : Int) / 1000000 = 5000 ∧
    freshState.mEnabled = 0 ∧
    setDelay freshState 0 5000000000 3 =
      ⟨0, { freshState with prev_delay_ms := 705 }, []⟩ ∧
    enabledState.mEnabled = 1 ∧
    setDelay enabledState 0 5000000000 3 =
      ⟨0, { enabledState with prev_delay_ms := 705 },
        [.openPoll 3, .writePoll 705, .closePoll]⟩ := by
  decide

/-- C3 (amended): in every reachable state, whenever `enable` performs a
successful disabled-to-enabled transition, the remembered delay after the
call is a nonzero integer, namely the remembered delay before the call if
that was nonzero and 50 otherwise, and it is the one value written to the
control attribute. -/
theorem C3_enable_transition_delay_nonzero [Zero F] (cfg : Config F) (s : AccelSensor F)
    (_hs : Reachable cfg s) (handle en fd : Int) (q : AbsQuery)
    (hdis : s.mEnabled = 0)
    (hret : (enable cfg s handle en fd q).ret = 0)
    (hon : (enable cfg s handle en fd q).state.mEnabled ≠ 0) :
    (enable cfg s handle en fd q).state.prev_delay_ms ≠ 0 ∧
    (enable cfg s handle en fd q).state.prev_delay_ms =
      (if s.prev_delay_ms ≠ 0 then s.prev_delay_ms else 50) ∧
    writes (enable cfg s handle en fd q).trace =
      [(enable cfg s handle en fd q).state.prev_delay_ms] := by
  by_cases hen : en = 0
  · rw [enable_of_same cfg s handle en fd q (by simp [hen, hdis])] at hon
    exact absurd hdis hon
  · by_cases hfd : fd < 0
    · rw [enable_of_open_failed cfg s handle en fd q (by simp [hen, hdis]) hfd] at hret
      simp at hret
    · obtain ⟨-, -, hd, -, hw, -, -⟩ := setInitialState_frame cfg
        { s with prev_delay_ms :=
            if s.prev_delay_ms ≠ 0 then s.prev_delay_ms else DEFAULT_POLL_INTERVAL } q
      rw [enable_on cfg s handle en fd q hdis hen (by omega)]
      dsimp only at hd ⊢
      rw [hd, writes_append, writes_append, hw]
      refine ⟨?_, rfl, rfl⟩
      by_cases hp : s.prev_delay_ms = 0
      · rw [if_neg (not_not.mpr hp)]; decide
      · rw [if_pos hp]; exact hp

/-- C3 on two reachable states: on the freshly constructed sensor (remembered
delay 0) the first `enable(0, 1)` leaves and writes 50; after
`setDelay(0, 200000000)` it leaves and writes 200. -/
theorem C3_enable_transition_delay_nonzero_witness :
    freshState.mEnabled = 0 ∧ freshState.prev_delay_ms = 0 ∧
    (enable unitConfig freshState 0 1 3 ⟨some 1, some 2, some 3⟩).ret = 0 ∧
    (enable unitConfig freshState 0 1 3 ⟨some 1, some 2, some 3⟩).state.mEnabled ≠ 0 ∧
    ((enable unitConfig freshState 0 1 3 ⟨some 1, some 2, some 3⟩).state.prev_delay_ms ≠ 0 ∧
     (enable unitConfig freshState 0 1 3 ⟨some 1, some 2, some 3⟩).state.prev_delay_ms =
       (if freshState.prev_delay_ms ≠ 0 then freshState.prev_delay_ms else 50) ∧
     writes (enable unitConfig freshState 0 1 3 ⟨some 1, some 2, some 3⟩).trace =
       [(enable unitConfig freshState 0 1 3 ⟨some 1, some 2, some 3⟩).state.prev_delay_ms]) ∧
    (enable unitConfig freshState 0 1 3 ⟨some 1, some 2, some 3⟩).state.prev_delay_ms = 50 ∧
    (setDelay freshState 0 200000000 3).state.prev_delay_ms = 200 ∧
    ((enable unitConfig (setDelay freshState 0 200000000 3).state 0 1 3
        ⟨some 1, some 2, some 3⟩).state.prev_delay_ms ≠ 0 ∧
     (enable unitConfig (setDelay freshState 0 200000000 3).state 0 1 3
        ⟨some 1, some 2, some 3⟩).state.prev_delay_ms =
       (if (setDelay freshState 0 200000000 3).state.prev_delay_ms ≠ 0
        then (setDelay freshState 0 200000000 3).state.prev_delay_ms else 50) ∧
     writes (enable unitConfig (setDelay freshState 0 200000000 3).state 0 1 3
        ⟨some 1, some 2, some 3⟩).trace =
       [(enable unitConfig (setDelay freshState 0 200000000 3).state 0 1 3
          ⟨some 1, some 2, some 3⟩).state.prev_delay_ms]) ∧
    writes (enable unitConfig (setDelay freshState 0 200000000 3).state 0 1 3
        ⟨some 1, some 2, some 3⟩).trace = [200] :=
  ⟨by decide, by decide, by decide, by decide,
   C3_enable_transition_delay_nonzero unitConfig freshState (Reachable.init 0) 0 1 3
     ⟨some 1, some 2, some 3⟩ (by decide) (by decide) (by decide),
   by decide, by decide,
   C3_enable_transition_delay_nonzero unitConfig (setDelay freshState 0 200000000 3).state
     (Reachable.setDelay 0 200000000 3 (Reachable.init 0)) 0 1 3
     ⟨some 1, some 2, some 3⟩ (by decide) (by decide) (by decide),
   by decide⟩

/-- C3 as stated fails: `setDelay(0, -5000000)` on the fresh, disabled sensor
remembers -5; the following `enable(0, 1)` succeeds, turns the sensor on, and
leaves and writes the remembered delay -5, which is not positive. -/
theorem C3_counterexample :
    Reachable unitConfig negativeDelayState ∧
    negativeDelayState.mEnabled = 0 ∧
    (enable unitConfig negativeDelayState 0 1 3 ⟨some 1, some 2, some 3⟩).ret = 0 ∧
    (enable unitConfig negativeDelayState 0 1 3 ⟨some 1, some 2, some 3⟩).state.mEnabled = 1 ∧
    (enable unitConfig negativeDelayState 0 1 3 ⟨some 1, some 2, some 3⟩).state.prev_delay_ms
      = -5 ∧
    writes (enable unitConfig negativeDelayState 0 1 3 ⟨some 1, some 2, some 3⟩).trace
      = [-5] ∧
    ¬ (0 < (enable unitConfig negativeDelayState 0 1 3
          ⟨some 1, some 2, some 3⟩).state.prev_delay_ms) :=
  ⟨Reachable.setDelay 0 (-5000000) 3 (Reachable.init 0),
   by decide, by decide, by decide, by decide, by decide, by decide⟩

/-- C4 as stated fails: with a first batch holding one X update and a
re-fetched batch holding one Y update (no marker in either), `readEvents`
fetches a third time, and, the third batch holding a marker, returns 1; and
when an earlier call left a marker in the reader, a marker-free first batch
is followed by no further fetch at all. -/
theorem C4_counterexample :
    enabledState.mEnabled = 1 ∧ enabledState.mHasPendingEvent = false ∧
    readEvents unitConfig enabledState 1 0
        [.events [absEvent 0 1], .events [absEvent 1 2], .events [synEvent 9]] =
      some
        { ret := 1
          state := { enabledState with
            mPendingEvent := ⟨104, 0, 1, 2, -1, 0, 9000000000⟩ }
          data := [⟨104, 0, 1, 2, -1, 0, 9000000000⟩]
          trace := [.fillReader 1, .fillReader 1, .fillReader 1] } ∧
    fetchCount [SysCall.fillReader 1, .fillReader 1, .fillReader 1] = 3 ∧
    leftoverState.mEnabled = 1 ∧ leftoverState.mHasPendingEvent = false ∧
    readEvents unitConfig leftoverState 1 0 [.events [absEvent 0 1]] =
      some
        { ret := 1
          state := { enabledState with
            mInputReader := [absEvent 0 1]
            mPendingEvent := ⟨104, 0, 1, 0, 0, 0, 2000000000⟩ }
          data := [⟨104, 0, 1, 0, 0, 0, 2000000000⟩]
          trace := [.fillReader 1] } := by
  decide

/-- C5: when the inline re-fetch fails with -5 after a marker-free first
batch, `readEvents` does not return the error: it fetches a third time and,
that batch being empty, returns 0. -/
theorem C5_refetch_failure_not_reported :
    enabledState.mEnabled = 1 ∧ enabledState.mHasPendingEvent = false ∧
    readEvents unitConfig enabledState 1 0
        [.events [absEvent 0 1], .failed (-5), .events []] =
      some
        { ret := 0
          state := { enabledState with
            mPendingEvent := ⟨104, 0, 1, 0, -1, 0, 0⟩ }
          data := []
          trace := [.fillReader 1, .fillReader (-5), .fillReader 0] } := by
  decide

/-- C6: with no pending seed and a capacity of at least 1, an initial fetch
failing with the negative code `e` makes `readEvents` return `e` after that
one fetch, with no output slot written and the whole state unchanged. -/
theorem C6_readEvents_initial_fetch_failure (cfg : Config F) (s : AccelSensor F)
    (count now e : Int) (rest : List FetchResult)
    (hpend : s.mHasPendingEvent = false) (hcount : 1 ≤ count) (he : e < 0) :
    readEvents cfg s count now (.failed e :: rest) =
      some ⟨e, s, [], [.fillReader e]⟩ := by
  have hc1 : ¬ count < 1 := by omega
  obtain ⟨en, rd, pf, pe, dl⟩ := s
  dsimp only at hpend
  subst hpend
  unfold readEvents
  rw [if_neg hc1]
  dsimp only [fill]
  rw [if_neg (by decide), if_pos he]

/-- C6 on the enabled sensor with the error code -5. -/
theorem C6_readEvents_initial_fetch_failure_witness :
    enabledState.mHasPendingEvent = false ∧
    readEvents unitConfig enabledState 1 0 [.failed (-5)] =
      some ⟨-5, enabledState, [], [.fillReader (-5)]⟩ :=
  ⟨by decide,
   C6_readEvents_initial_fetch_failure unitConfig enabledState 1 0 (-5) []
     (by decide) (by decide) (by decide)⟩

/-- C7: when the control attribute does not open (`fd < 0`), an `enable` that
requests a state change and a `setDelay` made while enabled both return -1,
leave the whole state unchanged and perform no system call but the failed
open. -/
theorem C7_open_failure_changes_nothing (cfg : Config F) (s : AccelSensor F)
    (handle en delay_ns fd : Int) (q : AbsQuery) (hfd : fd < 0) :
    ((if en ≠ 0 then (1 : Int) else 0) ≠ s.mEnabled →
      enable cfg s handle en fd q = ⟨-1, s, [.openPoll fd]⟩) ∧
    (s.mEnabled ≠ 0 →
      setDelay s handle delay_ns fd = ⟨-1, s, [.openPoll fd]⟩) := by
  refine ⟨fun h => enable_of_open_failed cfg s handle en fd q h hfd, fun h => ?_⟩
  have hfd1 : ¬ fd ≥ 0 := by omega
  unfold setDelay
  simp [h, hfd1]

/-- C7 on the enabled sensor: `enable(0, 0)` and `setDelay(0, 1000000)` with
a failing open. -/
theorem C7_open_failure_changes_nothing_witness :
    (-1 : Int) < 0 ∧
    enable unitConfig enabledState 0 0 (-1) ⟨some 1, some 2, some 3⟩ =
      ⟨-1, enabledState, [.openPoll (-1)]⟩ ∧
    setDelay enabledState 0 1000000 (-1) = ⟨-1, enabledState, [.openPoll (-1)]⟩ :=
  ⟨by decide,
   (C7_open_failure_changes_nothing unitConfig enabledState 0 0 1000000 (-1)
      ⟨some 1, some 2, some 3⟩ (by decide)).1 (by decide),
   (C7_open_failure_changes_nothing unitConfig enabledState 0 0 1000000 (-1)
      ⟨some 1, some 2, some 3⟩ (by decide)).2 (by decide)⟩

/-- C8: for every state and every capacity below 1, `readEvents` returns
`-EINVAL`, which is negative, performs no system call, writes no output slot
and leaves the whole state unchanged. -/
theorem C8_readEvents_invalid_capacity (cfg : Config F) (s : AccelSensor F)
    (count now : Int) (fetches : List FetchResult) (hcount : count < 1) :
    readEvents cfg s count now fetches = some ⟨-EINVAL, s, [], []⟩ ∧ -EINVAL < 0 := by
  refine ⟨?_, by decide⟩
  unfold readEvents
  simp [hcount]

/-- C8 on a sensor whose pending flag is set, with capacity 0. -/
theorem C8_readEvents_invalid_capacity_witness :
    seededState.mHasPendingEvent = true ∧
    readEvents unitConfig seededState 0 0 [.events [synEvent 1]] =
      some ⟨-EINVAL, seededState, [], []⟩ ∧ -EINVAL < 0 :=
  ⟨by decide,
   C8_readEvents_invalid_capacity unitConfig seededState 0 0 [.events [synEvent 1]]
     (by decide)⟩

/-- C9: on a disabled sensor with remembered delay `d`, an `enable(true)`
whose open succeeds returns 0, opens the control attribute, makes its axis
queries, then writes the one value `w` (`d` if `d` is nonzero, 50 otherwise)
and closes; it ends enabled with the remembered delay `w`. -/
theorem C9_enable_on_writes_resolved_delay (cfg : Config F) (s : AccelSensor F)
    (handle en fd : Int) (q : AbsQuery)
    (hdis : s.mEnabled = 0) (hen : en ≠ 0) (hfd : 0 ≤ fd) :
    ∃ queries : List SysCall, queries ≠ [] ∧ (∀ c ∈ queries, c.isQuery = true) ∧
      (enable cfg s handle en fd q).trace =
        .openPoll fd :: (queries ++
          [.writePoll (if s.prev_delay_ms ≠ 0 then s.prev_delay_ms else 50), .closePoll]) ∧
      writes (enable cfg s handle en fd q).trace =
        [if s.prev_delay_ms ≠ 0 then s.prev_delay_ms else 50] ∧
      (enable cfg s handle en fd q).ret = 0 ∧
      (enable cfg s handle en fd q).state.mEnabled = 1 ∧
      (enable cfg s handle en fd q).state.prev_delay_ms =
        (if s.prev_delay_ms ≠ 0 then s.prev_delay_ms else 50) := by
  obtain ⟨-, -, hd, -, hw, hne, hq⟩ := setInitialState_frame cfg
    { s with prev_delay_ms :=
        if s.prev_delay_ms ≠ 0 then s.prev_delay_ms else DEFAULT_POLL_INTERVAL } q
  rw [enable_on cfg s handle en fd q hdis hen hfd]
  refine ⟨_, hne, hq, rfl, ?_, rfl, rfl, hd⟩
  dsimp only
  rw [writes_append, writes_append, hw]
  rfl

/-- C9 on the fresh sensor (remembered delay 0): 50 is written after the
three axis queries. -/
theorem C9_enable_on_writes_resolved_delay_witness :
    freshState.mEnabled = 0 ∧ freshState.prev_delay_ms = 0 ∧
    enable unitConfig freshState 0 1 3 ⟨some 1, some 2, some 3⟩ =
      ⟨0, seededState,
        [.openPoll 3, .ioctlAbs 0 true, .ioctlAbs 1 true, .ioctlAbs 2 true,
         .writePoll 50, .closePoll]⟩ ∧
    seededState.mEnabled = 1 ∧ seededState.prev_delay_ms = 50 ∧
    ∃ queries : List SysCall, queries ≠ [] ∧ (∀ c ∈ queries, c.isQuery = true) ∧
      (enable unitConfig freshState 0 1 3 ⟨some 1, some 2, some 3⟩).trace =
        .openPoll 3 :: (queries ++
          [.writePoll (if freshState.prev_delay_ms ≠ 0 then freshState.prev_delay_ms else 50),
           .closePoll]) ∧
      writes (enable unitConfig freshState 0 1 3 ⟨some 1, some 2, some 3⟩).trace =
        [if freshState.prev_delay_ms ≠ 0 then freshState.prev_delay_ms else 50] ∧
      (enable unitConfig freshState 0 1 3 ⟨some 1, some 2, some 3⟩).ret = 0 ∧
      (enable unitConfig freshState 0 1 3 ⟨some 1, some 2, some 3⟩).state.mEnabled = 1 ∧
      (enable unitConfig freshState 0 1 3 ⟨some 1, some 2, some 3⟩).state.prev_delay_ms =
        (if freshState.prev_delay_ms ≠ 0 then freshState.prev_delay_ms else 50) :=
  ⟨by decide, by decide, by decide, by decide, by decide,
   C9_enable_on_writes_resolved_delay unitConfig freshState 0 1 3 ⟨some 1, some 2, some 3⟩
     (by decide) (by decide) (by decide)⟩

/-- C10: on an enabled sensor with remembered delay `d ≠ 0`, `enable(false)`
followed by `enable(true)`, both opening the control attribute, write 0 and
then `d`; `enable(false)` leaves the remembered delay `d`, and the sensor
ends enabled with the remembered delay `d`. -/
theorem C10_disable_enable_round_trip (cfg : Config F) (s : AccelSensor F)
    (h1 h2 en fd1 fd2 : Int) (q1 q2 : AbsQuery)
    (hon : s.mEnabled ≠ 0) (hd : s.prev_delay_ms ≠ 0) (hen : en ≠ 0)
    (hfd1 : 0 ≤ fd1) (hfd2 : 0 ≤ fd2) :
    (enable cfg s h1 0 fd1 q1).ret = 0 ∧
    (enable cfg s h1 0 fd1 q1).state.mEnabled = 0 ∧
    (enable cfg s h1 0 fd1 q1).state.prev_delay_ms = s.prev_delay_ms ∧
    (enable cfg s h1 0 fd1 q1).trace = [.openPoll fd1, .writePoll 0, .closePoll] ∧
    (enable cfg (enable cfg s h1 0 fd1 q1).state h2 en fd2 q2).ret = 0 ∧
    (enable cfg (enable cfg s h1 0 fd1 q1).state h2 en fd2 q2).state.mEnabled = 1 ∧
    (enable cfg (enable cfg s h1 0 fd1 q1).state h2 en fd2 q2).state.prev_delay_ms =
      s.prev_delay_ms ∧
    writes ((enable cfg s h1 0 fd1 q1).trace ++
        (enable cfg (enable cfg s h1 0 fd1 q1).state h2 en fd2 q2).trace) =
      [0, s.prev_delay_ms] := by
  obtain ⟨-, -, hd', -, hw, -, -⟩ := setInitialState_frame cfg
    { ({ s with mEnabled := 0 } : AccelSensor F) with prev_delay_ms :=
        if s.prev_delay_ms ≠ 0 then s.prev_delay_ms else DEFAULT_POLL_INTERVAL } q2
  rw [enable_off cfg s h1 fd1 q1 hon hfd1]
  rw [enable_on cfg { s with mEnabled := 0 } h2 en fd2 q2 rfl hen hfd2]
  dsimp only at hd' hw ⊢
  rw [if_pos hd] at hd' hw ⊢
  refine ⟨rfl, rfl, rfl, rfl, rfl, rfl, hd', ?_⟩
  rw [writes_append, writes_append, writes_append, hw]
  rfl

/-- C10 on the enabled sensor with remembered delay 50. -/
theorem C10_disable_enable_round_trip_witness :
    enabledState.mEnabled ≠ 0 ∧ enabledState.prev_delay_ms = 50 ∧
    (enable unitConfig enabledState 0 0 3 ⟨none, none, none⟩).ret = 0 ∧
    (enable unitConfig enabledState 0 0 3 ⟨none, none, none⟩).state.mEnabled = 0 ∧
    (enable unitConfig enabledState 0 0 3 ⟨none, none, none⟩).state.prev_delay_ms =
      enabledState.prev_delay_ms ∧
    (enable unitConfig enabledState 0 0 3 ⟨none, none, none⟩).trace =
      [.openPoll 3, .writePoll 0, .closePoll] ∧
    (enable unitConfig (enable unitConfig enabledState 0 0 3 ⟨none, none, none⟩).state
      0 1 4 ⟨none, none, none⟩).ret = 0 ∧
    (enable unitConfig (enable unitConfig enabledState 0 0 3 ⟨none, none, none⟩).state
      0 1 4 ⟨none, none, none⟩).state.mEnabled = 1 ∧
    (enable unitConfig (enable unitConfig enabledState 0 0 3 ⟨none, none, none⟩).state
      0 1 4 ⟨none, none, none⟩).state.prev_delay_ms = enabledState.prev_delay_ms ∧
    writes ((enable unitConfig enabledState 0 0 3 ⟨none, none, none⟩).trace ++
        (enable unitConfig (enable unitConfig enabledState 0 0 3 ⟨none, none, none⟩).state
          0 1 4 ⟨none, none, none⟩).trace) =
      [0, enabledState.prev_delay_ms] :=
  ⟨by decide, by decide,
   C10_disable_enable_round_trip unitConfig enabledState 0 0 1 3 4 ⟨none, none, none⟩
     ⟨none, none, none⟩ (by decide) (by decide) (by decide) (by decide) (by decide)⟩

/-! ## Further auxiliary facts -/

/-- The method `setDelay` on a disabled sensor. -/
theorem setDelay_of_disabled (s : AccelSensor F) (handle delay_ns fd : Int)
    (hdis : s.mEnabled = 0) :
    setDelay s handle delay_ns fd =
      ⟨0, { s with prev_delay_ms := delayMs delay_ns }, []⟩ := by
  unfold setDelay
  rw [if_pos hdis]

/-- The method `setDelay` on an enabled sensor whose control attribute opens. -/
theorem setDelay_of_enabled (s : AccelSensor F) (handle delay_ns fd : Int)
    (hen : s.mEnabled ≠ 0) (hfd : 0 ≤ fd) :
    setDelay s handle delay_ns fd =
      ⟨0, { s with prev_delay_ms := delayMs delay_ns },
        [.openPoll fd, .writePoll (delayMs delay_ns), .closePoll]⟩ := by
  unfold setDelay
  rw [if_neg hen, if_pos (by omega : fd ≥ 0)]

/-- A successful `enable` with a nonzero argument leaves the sensor enabled. -/
theorem enable_true_enabled (cfg : Config F) (s : AccelSensor F) (handle en fd : Int)
    (q : AbsQuery) (hen : en ≠ 0) (hret : (enable cfg s handle en fd q).ret = 0) :
    (enable cfg s handle en fd q).state.mEnabled = 1 := by
  by_cases hsame : (if en ≠ 0 then (1 : Int) else 0) = s.mEnabled
  · rw [enable_of_same cfg s handle en fd q hsame]
    rw [if_pos hen] at hsame
    exact hsame.symm
  · by_cases hfd : fd < 0
    · rw [enable_of_open_failed cfg s handle en fd q hsame hfd] at hret
      simp at hret
    · have hfd1 : fd ≥ 0 := by omega
      rw [if_pos hen] at hsame
      unfold enable
      simp [hen, hsame, hfd1]

/-- The system calls of the code from `again` on extend those made before. -/
theorem again_trace (cfg : Config F) :
    ∀ (fetches : List FetchResult) (st : ReadLoop F) (trace : List SysCall)
      (r : ReadOutcome F),
      again cfg fetches st trace = some r → ∃ t, r.trace = trace ++ t := by
  intro fetches
  induction fetches with
  | nil =>
    intro st trace r h
    unfold again at h
    dsimp only at h
    split_ifs at h
    cases h
    exact ⟨[], by simp⟩
  | cons f rest ih =>
    intro st trace r h
    unfold again at h
    dsimp only at h
    split_ifs at h
    · obtain ⟨t, ht⟩ := ih _ _ r h
      exact ⟨[SysCall.fillReader
        (fill (whileLoop cfg st.self.mInputReader st).self.mInputReader f).1] ++ t,
        by rw [ht, List.append_assoc]⟩
    · cases h
      exact ⟨[_], rfl⟩
    · cases h
      exact ⟨[], by simp⟩

/-- A call of `readEvents` with capacity and no pending seed starts with a
fetch. -/
theorem readEvents_starts_with_fetch (cfg : Config F) (s : AccelSensor F)
    (count now : Int) (fetches : List FetchResult) (r : ReadOutcome F)
    (hpend : s.mHasPendingEvent = false) (hcount : 1 ≤ count)
    (h : readEvents cfg s count now fetches = some r) :
    ∃ n t, r.trace = SysCall.fillReader n :: t := by
  have hc1 : ¬ count < 1 := by omega
  unfold readEvents at h
  rw [if_neg hc1, hpend] at h
  cases fetches with
  | nil => simp at h
  | cons f rest =>
    dsimp only at h
    rw [if_neg (by decide)] at h
    split_ifs at h
    · cases h
      exact ⟨(fill s.mInputReader f).1, [], rfl⟩
    · obtain ⟨t, ht⟩ := again_trace cfg _ _ _ r h
      exact ⟨(fill s.mInputReader f).1, t, by rw [ht]; rfl⟩

/-! ## Properties of the sensor, continued -/

/-- C11: on a disabled sensor `setDelay` returns 0, performs no system call,
and changes nothing but the remembered delay. -/
theorem C11_setDelay_disabled_no_io (s : AccelSensor F) (handle delay_ns fd : Int)
    (hdis : s.mEnabled = 0) :
    (setDelay s handle delay_ns fd).ret = 0 ∧
    (setDelay s handle delay_ns fd).trace = [] ∧
    (setDelay s handle delay_ns fd).state =
      { s with prev_delay_ms := (setDelay s handle delay_ns fd).state.prev_delay_ms } ∧
    (setDelay s handle delay_ns fd).state.mEnabled = s.mEnabled ∧
    (setDelay s handle delay_ns fd).state.mPendingEvent = s.mPendingEvent ∧
    (setDelay s handle delay_ns fd).state.mHasPendingEvent = s.mHasPendingEvent := by
  rw [setDelay_of_disabled s handle delay_ns fd hdis]
  exact ⟨rfl, rfl, rfl, rfl, rfl, rfl⟩

/-- C11 on the fresh sensor with a delay of 200 ms. -/
theorem C11_setDelay_disabled_no_io_witness :
    freshState.mEnabled = 0 ∧
    setDelay freshState 0 200000000 (-1) =
      ⟨0, { freshState with prev_delay_ms := 200 }, []⟩ ∧
    (setDelay freshState 0 200000000 (-1)).ret = 0 ∧
    (setDelay freshState 0 200000000 (-1)).trace = [] ∧
    (setDelay freshState 0 200000000 (-1)).state =
      { freshState with
        prev_delay_ms := (setDelay freshState 0 200000000 (-1)).state.prev_delay_ms } ∧
    (setDelay freshState 0 200000000 (-1)).state.mEnabled = freshState.mEnabled ∧
    (setDelay freshState 0 200000000 (-1)).state.mPendingEvent = freshState.mPendingEvent ∧
    (setDelay freshState 0 200000000 (-1)).state.mHasPendingEvent =
      freshState.mHasPendingEvent :=
  ⟨by decide, by decide,
   C11_setDelay_disabled_no_io freshState 0 200000000 (-1) (by decide)⟩

/-- C12: on an enabled sensor a `setDelay` whose open succeeds returns 0,
opens, writes exactly one value and closes; the value written is the
remembered delay after the call, and nothing else of the state changes. -/
theorem C12_setDelay_enabled_one_write (s : AccelSensor F) (handle delay_ns fd : Int)
    (hen : s.mEnabled ≠ 0) (hfd : 0 ≤ fd) :
    (setDelay s handle delay_ns fd).ret = 0 ∧
    (setDelay s handle delay_ns fd).trace =
      [.openPoll fd, .writePoll (setDelay s handle delay_ns fd).state.prev_delay_ms,
       .closePoll] ∧
    writes (setDelay s handle delay_ns fd).trace =
      [(setDelay s handle delay_ns fd).state.prev_delay_ms] ∧
    (setDelay s handle delay_ns fd).state =
      { s with prev_delay_ms := (setDelay s handle delay_ns fd).state.prev_delay_ms } ∧
    (setDelay s handle delay_ns fd).state.mEnabled = s.mEnabled ∧
    (setDelay s handle delay_ns fd).state.mPendingEvent = s.mPendingEvent ∧
    (setDelay s handle delay_ns fd).state.mHasPendingEvent = s.mHasPendingEvent := by
  rw [setDelay_of_enabled s handle delay_ns fd hen hfd]
  exact ⟨rfl, rfl, rfl, rfl, rfl, rfl, rfl⟩

/-- C12 on the enabled sensor with a delay of 200 ms. -/
theorem C12_setDelay_enabled_one_write_witness :
    enabledState.mEnabled ≠ 0 ∧
    setDelay enabledState 0 200000000 3 =
      ⟨0, { enabledState with prev_delay_ms := 200 },
        [.openPoll 3, .writePoll 200, .closePoll]⟩ ∧
    (setDelay enabledState 0 200000000 3).ret = 0 ∧
    (setDelay enabledState 0 200000000 3).trace =
      [.openPoll 3, .writePoll (setDelay enabledState 0 200000000 3).state.prev_delay_ms,
       .closePoll] ∧
    writes (setDelay enabledState 0 200000000 3).trace =
      [(setDelay enabledState 0 200000000 3).state.prev_delay_ms] ∧
    (setDelay enabledState 0 200000000 3).state =
      { enabledState with
        prev_delay_ms := (setDelay enabledState 0 200000000 3).state.prev_delay_ms } ∧
    (setDelay enabledState 0 200000000 3).state.mEnabled = enabledState.mEnabled ∧
    (setDelay enabledState 0 200000000 3).state.mPendingEvent =
      enabledState.mPendingEvent ∧
    (setDelay enabledState 0 200000000 3).state.mHasPendingEvent =
      enabledState.mHasPendingEvent :=
  ⟨by decide, by decide,
   C12_setDelay_enabled_one_write enabledState 0 200000000 3 (by decide) (by decide)⟩

/-- C13: when the truth value of `en` equals the enabled flag, `enable`
returns 0, performs no system call and leaves the whole state unchanged;
hence, after any `enable(true)` that returned success, a second
`enable(true)` returns 0 with no system call and no change of state. -/
theorem C13_enable_same_state_noop (cfg : Config F) (s : AccelSensor F)
    (handle en fd : Int) (q : AbsQuery)
    (hsame : (if en ≠ 0 then (1 : Int) else 0) = s.mEnabled) :
    enable cfg s handle en fd q = ⟨0, s, []⟩ ∧
    (∀ (s0 : AccelSensor F) (h1 en1 fd1 : Int) (q1 : AbsQuery) (h2 en2 fd2 : Int)
        (q2 : AbsQuery), en1 ≠ 0 → en2 ≠ 0 →
      (enable cfg s0 h1 en1 fd1 q1).ret = 0 →
      enable cfg (enable cfg s0 h1 en1 fd1 q1).state h2 en2 fd2 q2 =
        ⟨0, (enable cfg s0 h1 en1 fd1 q1).state, []⟩) := by
  refine ⟨enable_of_same cfg s handle en fd q hsame, ?_⟩
  intro s0 h1 en1 fd1 q1 h2 en2 fd2 q2 hen1 hen2 hret
  apply enable_of_same
  rw [if_pos hen2, enable_true_enabled cfg s0 h1 en1 fd1 q1 hen1 hret]

/-- C13 on the enabled sensor: a further `enable(0, 1)` does nothing, also
when its open would fail; and `enable(0, 1)` twice on the fresh sensor
leaves what the first call left. -/
theorem C13_enable_same_state_noop_witness :
    (if (1 : Int) ≠ 0 then (1 : Int) else 0) = enabledState.mEnabled ∧
    enable unitConfig enabledState 0 1 (-1) ⟨some 1, some 2, some 3⟩ =
      ⟨0, enabledState, []⟩ ∧
    enable unitConfig (enable unitConfig freshState 0 1 3 ⟨some 1, some 2, some 3⟩).state
        0 1 4 ⟨some 4, some 5, some 6⟩ =
      ⟨0, seededState, []⟩ :=
  ⟨by decide,
   (C13_enable_same_state_noop unitConfig enabledState 0 1 (-1) ⟨some 1, some 2, some 3⟩
      (by decide)).1,
   (C13_enable_same_state_noop unitConfig enabledState 0 1 (-1) ⟨some 1, some 2, some 3⟩
      (by decide)).2 freshState 0 1 3 ⟨some 1, some 2, some 3⟩ 0 1 4 ⟨some 4, some 5, some 6⟩
      (by decide) (by decide) (by decide)⟩

/-- C14: with the pending flag set and a capacity of at least 1, `readEvents`
only reads the clock: no fetch, no buffered event consumed; it clears the
pending flag, stamps the pending reading with the current time, writes it to
the first output slot and returns 1 when the sensor is enabled, 0 when it is
disabled.  A following call with capacity starts with a fetch: it does not
take the seed path again. -/
theorem C14_readEvents_pending_seed (cfg : Config F) (s : AccelSensor F)
    (count now : Int) (fetches : List FetchResult)
    (hpend : s.mHasPendingEvent = true) (hcount : 1 ≤ count) :
    readEvents cfg s count now fetches =
      some
        { ret := if s.mEnabled ≠ 0 then 1 else 0
          state := { s with
            mHasPendingEvent := false
            mPendingEvent := { s.mPendingEvent with timestamp := now } }
          data := [{ s.mPendingEvent with timestamp := now }]
          trace := [.getTimestamp] } ∧
    (∀ (count2 now2 : Int) (fetches2 : List FetchResult) (r2 : ReadOutcome F),
      1 ≤ count2 →
      readEvents cfg
          { s with
            mHasPendingEvent := false
            mPendingEvent := { s.mPendingEvent with timestamp := now } }
          count2 now2 fetches2 = some r2 →
      ∃ n t, r2.trace = SysCall.fillReader n :: t) := by
  have hc1 : ¬ count < 1 := by omega
  refine ⟨?_, ?_⟩
  · unfold readEvents
    rw [if_neg hc1, if_pos hpend]
  · intro count2 now2 fetches2 r2 hcount2 h
    exact readEvents_starts_with_fetch cfg _ count2 now2 fetches2 r2 rfl hcount2 h

/-- C14 on the seeded sensor at time 42, followed by a call that fetches a
marker. -/
theorem C14_readEvents_pending_seed_witness :
    seededState.mHasPendingEvent = true ∧ seededState.mEnabled = 1 ∧
    readEvents unitConfig seededState 1 42 [] =
      some
        { ret := 1
          state := { seededState with
            mHasPendingEvent := false
            mPendingEvent := ⟨104, 0, 1, 2, 1, 3, 42⟩ }
          data := [⟨104, 0, 1, 2, 1, 3, 42⟩]
          trace := [.getTimestamp] } ∧
    ∃ n t,
      (ReadOutcome.mk 1
        { seededState with
          mHasPendingEvent := false
          mPendingEvent := ⟨104, 0, 1, 2, 1, 3, 7000000000⟩ }
        [⟨104, 0, 1, 2, 1, 3, 7000000000⟩] [.fillReader 1]).trace =
        SysCall.fillReader n :: t :=
  ⟨by decide, by decide,
   (C14_readEvents_pending_seed unitConfig seededState 1 42 [] (by decide)
      (by decide)).1.trans (by decide),
   (C14_readEvents_pending_seed unitConfig seededState 1 42 [] (by decide)
      (by decide)).2 1 0 [.events [synEvent 7]]
      (ReadOutcome.mk 1
        { seededState with
          mHasPendingEvent := false
          mPendingEvent := ⟨104, 0, 1, 2, 1, 3, 7000000000⟩ }
        [⟨104, 0, 1, 2, 1, 3, 7000000000⟩] [.fillReader 1])
      (by decide) (by decide)⟩

/-- Reading axis updates followed by one marker, while enabled: one reading
is emitted after the single fetch. -/
theorem readEvents_updates_then_marker (cfg : Config F) (s : AccelSensor F)
    (count now : Int) (batch updates : List InputEvent) (marker : InputEvent)
    (rest : List FetchResult)
    (hcodes : cfg.distinctCodes)
    (hen : s.mEnabled ≠ 0) (hpend : s.mHasPendingEvent = false) (hcount : 1 ≤ count)
    (hupd : ∀ e ∈ updates, e.type = EV_ABS) (hsyn : marker.type = EV_SYN)
    (hbuf : s.mInputReader ++ batch = updates ++ [marker]) :
    readEvents cfg s count now (.events batch :: rest) =
      some
        { ret := 1
          state := { s with
            mInputReader := []
            mPendingEvent :=
              { accumulated cfg updates s.mPendingEvent with
                timestamp := cfg.timevalToNano marker.time } }
          data := [{ accumulated cfg updates s.mPendingEvent with
                      timestamp := cfg.timevalToNano marker.time }]
          trace := [.fillReader batch.length] } := by
  have hc0 : count ≠ 0 := by omega
  have hc1 : ¬ count < 1 := by omega
  have hlen : ¬ ((batch.length : Int) < 0) := by omega
  have hloop : whileLoop cfg (s.mInputReader ++ batch)
      ⟨{ s with mInputReader := s.mInputReader ++ batch }, count, [], 0⟩ =
      { self := { s with
          mInputReader := []
          mPendingEvent :=
            { accumulated cfg updates s.mPendingEvent with
              timestamp := cfg.timevalToNano marker.time } }
        count := count - 1
        data := [{ accumulated cfg updates s.mPendingEvent with
                    timestamp := cfg.timevalToNano marker.time }]
        numEventReceived := 1 } := by
    rw [hbuf, whileLoop_updates cfg hcodes [marker] updates _ hupd hc0,
      whileLoop_marker cfg marker _ hsyn hc0 hen]
    simp
  unfold readEvents
  simp only [hc1, if_false, hpend, fill, hlen]
  simp only [hpend] at hloop
  rw [again_of_emitted] <;> simp [hloop]

/-- C15 (amended): when the three axis queries succeed with the raw values
`x`, `y`, `z`, `setInitialState` returns 0 and sets the pending vector to
index 0 = `y` scaled by the X constant, index 1 = `x` scaled by the Y
constant, index 2 = `z` scaled by the Z constant, and sets the pending
flag; nothing else of the state changes. -/
theorem C15_setInitialState_seeds (cfg : Config F) (s : AccelSensor F) (x y z : Int) :
    setInitialState cfg s ⟨some x, some y, some z⟩ =
      ⟨0,
       { s with
         mPendingEvent :=
           { s.mPendingEvent with
             data0 := cfg.CONVERT_A_X * (y : F)
             data1 := cfg.CONVERT_A_Y * (x : F)
             data2 := cfg.CONVERT_A_Z * (z : F) }
         mHasPendingEvent := true },
       [.ioctlAbs cfg.EVENT_TYPE_ACCEL_X true,
        .ioctlAbs cfg.EVENT_TYPE_ACCEL_Y true,
        .ioctlAbs cfg.EVENT_TYPE_ACCEL_Z true]⟩ := by
  simp [setInitialState, mul_comm]

/-- C15 as stated fails: with the scale constants 10, 100, 1000 and the raw
values x = 1, y = 2, z = 3 the seeded vector is (20, 100, 3000), not
(100, 20, 3000) as x scaled by the Y constant and y scaled by the X constant
would give. -/
theorem C15_counterexample :
    (setInitialState scaledConfig (AccelSensor.init scaledConfig 0)
        ⟨some 1, some 2, some 3⟩).state.mPendingEvent =
      ⟨104, 0, 1, 20, 100, 3000, 0⟩ ∧
    (setInitialState scaledConfig (AccelSensor.init scaledConfig 0)
        ⟨some 1, some 2, some 3⟩).state.mHasPendingEvent = true ∧
    (setInitialState scaledConfig (AccelSensor.init scaledConfig 0)
        ⟨some 1, some 2, some 3⟩).state.mPendingEvent.data0 ≠
      scaledConfig.CONVERT_A_Y * 1 ∧
    (setInitialState scaledConfig (AccelSensor.init scaledConfig 0)
        ⟨some 1, some 2, some 3⟩).state.mPendingEvent.data1 ≠
      scaledConfig.CONVERT_A_X * 2 := by
  decide

/-- C16: when at least one of the three axis queries fails, `setInitialState`
returns 0 and leaves the whole state, pending vector and pending flag
included, unchanged; the `enable(true)` around it, on a disabled sensor whose
control attribute opens, still returns 0, writes the resolved delay and sets
the enabled flag. -/
theorem C16_seeding_best_effort (cfg : Config F) (s : AccelSensor F)
    (handle en fd : Int) (q : AbsQuery)
    (hq : q.x = none ∨ q.y = none ∨ q.z = none) :
    (setInitialState cfg s q).ret = 0 ∧
    (setInitialState cfg s q).state = s ∧
    (s.mEnabled = 0 → en ≠ 0 → 0 ≤ fd →
      (enable cfg s handle en fd q).ret = 0 ∧
      (enable cfg s handle en fd q).state =
        { s with
          mEnabled := 1
          prev_delay_ms := if s.prev_delay_ms ≠ 0 then s.prev_delay_ms else 50 } ∧
      writes (enable cfg s handle en fd q).trace =
        [if s.prev_delay_ms ≠ 0 then s.prev_delay_ms else 50]) := by
  have hsame : ∀ s1 : AccelSensor F, (setInitialState cfg s1 q).state = s1 := by
    intro s1
    unfold setInitialState
    rcases q with ⟨_ | x, _ | y, _ | z⟩ <;> simp at hq ⊢
  refine ⟨(setInitialState_frame cfg s q).1, hsame s, ?_⟩
  intro hdis hen hfd
  obtain ⟨-, -, -, -, hw, -, -⟩ := setInitialState_frame cfg
    { s with prev_delay_ms :=
        if s.prev_delay_ms ≠ 0 then s.prev_delay_ms else DEFAULT_POLL_INTERVAL } q
  rw [enable_on cfg s handle en fd q hdis hen hfd]
  dsimp only
  rw [hsame, writes_append, writes_append, hw]
  exact ⟨rfl, rfl, rfl⟩

/-- C16 on the fresh sensor with the Y query failing. -/
theorem C16_seeding_best_effort_witness :
    (setInitialState unitConfig freshState ⟨some 1, none, some 3⟩).ret = 0 ∧
    (setInitialState unitConfig freshState ⟨some 1, none, some 3⟩).state = freshState ∧
    (enable unitConfig freshState 0 1 3 ⟨some 1, none, some 3⟩).ret = 0 ∧
    (enable unitConfig freshState 0 1 3 ⟨some 1, none, some 3⟩).state =
      { freshState with
        mEnabled := 1
        prev_delay_ms :=
          if freshState.prev_delay_ms ≠ 0 then freshState.prev_delay_ms else 50 } ∧
    writes (enable unitConfig freshState 0 1 3 ⟨some 1, none, some 3⟩).trace =
      [if freshState.prev_delay_ms ≠ 0 then freshState.prev_delay_ms else 50] :=
  ⟨(C16_seeding_best_effort unitConfig freshState 0 1 3 ⟨some 1, none, some 3⟩
      (by decide)).1,
   (C16_seeding_best_effort unitConfig freshState 0 1 3 ⟨some 1, none, some 3⟩
      (by decide)).2.1,
   (C16_seeding_best_effort unitConfig freshState 0 1 3 ⟨some 1, none, some 3⟩
      (by decide)).2.2 (by decide) (by decide) (by decide)⟩

/-- C19: on an enabled sensor, a `setDelay` with `0 < delay_ns < 1000000`
whose open succeeds returns 0, writes the value 0 to the control attribute
and sets the remembered delay to 0, while the enabled flag and the rest of
the state stay as they were. -/
theorem C19_setDelay_submillisecond_writes_zero (s : AccelSensor F)
    (handle delay_ns fd : Int)
    (hen : s.mEnabled ≠ 0) (h0 : 0 < delay_ns) (h1 : delay_ns < 1000000) (hfd : 0 ≤ fd) :
    setDelay s handle delay_ns fd =
      ⟨0, { s with prev_delay_ms := 0 }, [.openPoll fd, .writePoll 0, .closePoll]⟩ ∧
    (setDelay s handle delay_ns fd).state.mEnabled = s.mEnabled := by
  have hms : delayMs delay_ns = 0 := by
    rw [delayMs_of_lt delay_ns (by omega) (by omega)]
    exact Int.ediv_eq_zero_of_lt (by omega) h1
  rw [setDelay_of_enabled s handle delay_ns fd hen hfd, hms]
  exact ⟨rfl, rfl⟩

/-- C19 on the enabled sensor with a delay of half a millisecond. -/
theorem C19_setDelay_submillisecond_writes_zero_witness :
    enabledState.mEnabled = 1 ∧ enabledState.prev_delay_ms = 50 ∧
    setDelay enabledState 0 500000 3 =
      ⟨0, { enabledState with prev_delay_ms := 0 },
        [.openPoll 3, .writePoll 0, .closePoll]⟩ ∧
    (setDelay enabledState 0 500000 3).state.mEnabled = enabledState.mEnabled :=
  ⟨by decide, by decide,
   C19_setDelay_submillisecond_writes_zero enabledState 0 500000 3
     (by decide) (by decide) (by decide) (by decide)⟩

/-- The last value per axis over two lists read one after the other. -/
theorem lastValue_append (c : Int) (a b : List InputEvent) :
    lastValue c (a ++ b) =
      match lastValue c b with
      | some v => some v
      | none => lastValue c a := by
  induction a with
  | nil => cases h : lastValue c b <;> simp [lastValue, h]
  | cons e a ih =>
    rw [List.cons_append, lastValue, ih]
    cases h : lastValue c b <;> simp [lastValue]

/-- Accumulating over two lists read one after the other. -/
theorem accumulated_append (cfg : Config F) (a b : List InputEvent) (p : SensorsEvent F) :
    accumulated cfg (a ++ b) p = accumulated cfg b (accumulated cfg a p) := by
  unfold accumulated
  rw [lastValue_append, lastValue_append, lastValue_append]
  cases lastValue cfg.EVENT_TYPE_ACCEL_X b <;>
  cases lastValue cfg.EVENT_TYPE_ACCEL_Y b <;>
  cases lastValue cfg.EVENT_TYPE_ACCEL_Z b <;> rfl

/-- C20: for raw values `x`, `y`, `z` and equal X and Y scale constants, the
vector seeded by a successful `setInitialState` from the queried values and
the vector of the reading that `readEvents` emits, while enabled, for the
streamed updates X=x, Y=y, Z=z followed by a marker agree at indices 0 and 2
and are negations of each other at index 1. -/
theorem C20_seed_versus_stream {G : Type} [CommMagma G] [InvolutiveNeg G] [IntCast G]
    (cfg : Config G) (s0 s : AccelSensor G) (x y z : Int) (tx ty tz : Timeval)
    (marker : InputEvent) (count now : Int) (rest : List FetchResult)
    (hcodes : cfg.distinctCodes) (heq : cfg.CONVERT_A_X = cfg.CONVERT_A_Y)
    (hen : s.mEnabled ≠ 0) (hpend : s.mHasPendingEvent = false) (hcount : 1 ≤ count)
    (hleft : ∀ e ∈ s.mInputReader, e.type = EV_ABS) (hsyn : marker.type = EV_SYN) :
    ∃ r reading,
      readEvents cfg s count now
        (.events [⟨tx, EV_ABS, cfg.EVENT_TYPE_ACCEL_X, x⟩,
                  ⟨ty, EV_ABS, cfg.EVENT_TYPE_ACCEL_Y, y⟩,
                  ⟨tz, EV_ABS, cfg.EVENT_TYPE_ACCEL_Z, z⟩, marker] :: rest) = some r ∧
      r.ret = 1 ∧ r.data = [reading] ∧
      reading.data0 =
        (setInitialState cfg s0 ⟨some x, some y, some z⟩).state.mPendingEvent.data0 ∧
      reading.data2 =
        (setInitialState cfg s0 ⟨some x, some y, some z⟩).state.mPendingEvent.data2 ∧
      reading.data1 =
        -(setInitialState cfg s0 ⟨some x, some y, some z⟩).state.mPendingEvent.data1 ∧
      (setInitialState cfg s0 ⟨some x, some y, some z⟩).state.mPendingEvent.data1 =
        -reading.data1 := by
  obtain ⟨hxy, hxz, hyz⟩ := hcodes
  have hupd : ∀ e ∈ s.mInputReader ++
      [(⟨tx, EV_ABS, cfg.EVENT_TYPE_ACCEL_X, x⟩ : InputEvent),
       ⟨ty, EV_ABS, cfg.EVENT_TYPE_ACCEL_Y, y⟩,
       ⟨tz, EV_ABS, cfg.EVENT_TYPE_ACCEL_Z, z⟩], e.type = EV_ABS := by
    intro e he
    rcases List.mem_append.mp he with h | h
    · exact hleft e h
    · simp at h
      rcases h with h | h | h <;> rw [h]
  have hread := readEvents_updates_then_marker cfg s count now
    [⟨tx, EV_ABS, cfg.EVENT_TYPE_ACCEL_X, x⟩, ⟨ty, EV_ABS, cfg.EVENT_TYPE_ACCEL_Y, y⟩,
     ⟨tz, EV_ABS, cfg.EVENT_TYPE_ACCEL_Z, z⟩, marker]
    (s.mInputReader ++
      [⟨tx, EV_ABS, cfg.EVENT_TYPE_ACCEL_X, x⟩, ⟨ty, EV_ABS, cfg.EVENT_TYPE_ACCEL_Y, y⟩,
       ⟨tz, EV_ABS, cfg.EVENT_TYPE_ACCEL_Z, z⟩])
    marker rest ⟨hxy, hxz, hyz⟩ hen hpend hcount hupd hsyn (by simp)
  have hX : lastValue cfg.EVENT_TYPE_ACCEL_X (s.mInputReader ++
      [(⟨tx, EV_ABS, cfg.EVENT_TYPE_ACCEL_X, x⟩ : InputEvent),
       ⟨ty, EV_ABS, cfg.EVENT_TYPE_ACCEL_Y, y⟩,
       ⟨tz, EV_ABS, cfg.EVENT_TYPE_ACCEL_Z, z⟩]) = some x := by
    rw [lastValue_append]
    simp [lastValue, Ne.symm hxy, Ne.symm hxz]
  have hY : lastValue cfg.EVENT_TYPE_ACCEL_Y (s.mInputReader ++
      [(⟨tx, EV_ABS, cfg.EVENT_TYPE_ACCEL_X, x⟩ : InputEvent),
       ⟨ty, EV_ABS, cfg.EVENT_TYPE_ACCEL_Y, y⟩,
       ⟨tz, EV_ABS, cfg.EVENT_TYPE_ACCEL_Z, z⟩]) = some y := by
    rw [lastValue_append]
    simp [lastValue, Ne.symm hyz]
  have hZ : lastValue cfg.EVENT_TYPE_ACCEL_Z (s.mInputReader ++
      [(⟨tx, EV_ABS, cfg.EVENT_TYPE_ACCEL_X, x⟩ : InputEvent),
       ⟨ty, EV_ABS, cfg.EVENT_TYPE_ACCEL_Y, y⟩,
       ⟨tz, EV_ABS, cfg.EVENT_TYPE_ACCEL_Z, z⟩]) = some z := by
    rw [lastValue_append]
    simp [lastValue]
  refine ⟨_, _, hread, rfl, rfl, ?_, ?_, ?_, ?_⟩ <;>
    simp [accumulated, hX, hY, hZ, setInitialState, heq, mul_comm]

/-- C20 with x = 1, y = 2, z = 3 and unit constants: the seed is (2, 1, 3),
the streamed reading (2, -1, 3). -/
theorem C20_seed_versus_stream_witness :
    (setInitialState unitConfig freshState ⟨some 1, some 2, some 3⟩).state.mPendingEvent =
      ⟨104, 0, 1, 2, 1, 3, 0⟩ ∧
    readEvents unitConfig enabledState 1 0
        [.events [absEvent 0 1, absEvent 1 2, absEvent 2 3, synEvent 7]] =
      some
        { ret := 1
          state := { enabledState with
            mPendingEvent := ⟨104, 0, 1, 2, -1, 3, 7000000000⟩ }
          data := [⟨104, 0, 1, 2, -1, 3, 7000000000⟩]
          trace := [.fillReader 4] } ∧
    ∃ r reading,
      readEvents unitConfig enabledState 1 0
        (.events [⟨⟨0, 0⟩, EV_ABS, unitConfig.EVENT_TYPE_ACCEL_X, 1⟩,
                  ⟨⟨0, 0⟩, EV_ABS, unitConfig.EVENT_TYPE_ACCEL_Y, 2⟩,
                  ⟨⟨0, 0⟩, EV_ABS, unitConfig.EVENT_TYPE_ACCEL_Z, 3⟩, synEvent 7] :: []) =
        some r ∧
      r.ret = 1 ∧ r.data = [reading] ∧
      reading.data0 =
        (setInitialState unitConfig freshState
          ⟨some 1, some 2, some 3⟩).state.mPendingEvent.data0 ∧
      reading.data2 =
        (setInitialState unitConfig freshState
          ⟨some 1, some 2, some 3⟩).state.mPendingEvent.data2 ∧
      reading.data1 =
        -(setInitialState unitConfig freshState
          ⟨some 1, some 2, some 3⟩).state.mPendingEvent.data1 ∧
      (setInitialState unitConfig freshState
          ⟨some 1, some 2, some 3⟩).state.mPendingEvent.data1 =
        -reading.data1 :=
  ⟨by decide, by decide,
   C20_seed_versus_stream unitConfig freshState enabledState 1 2 3 ⟨0, 0⟩ ⟨0, 0⟩ ⟨0, 0⟩
     (synEvent 7) 1 0 [] (by decide) (by decide) (by decide) (by decide) (by decide)
     (by decide) (by decide)⟩

theorem pendingAfter_nil (cfg : Config F) (p : SensorsEvent F) :
    pendingAfter cfg [] p = p := by
  cases p; rfl

/-- The pending reading after `e :: es` is the one after `es`, started from
the one after `e`. -/
theorem pendingAfter_cons (cfg : Config F) (e : InputEvent) (es : List InputEvent)
    (p : SensorsEvent F) :
    pendingAfter cfg (e :: es) p = pendingAfter cfg es (pendingAfter cfg [e] p) := by
  have h := accumulated_append cfg [e] es p
  rw [List.singleton_append] at h
  unfold pendingAfter
  rw [h]
  simp [accumulated, stamp]

/-- The pending reading after two lists of events read one after the
other. -/
theorem pendingAfter_append (cfg : Config F) (a b : List InputEvent) :
    ∀ p : SensorsEvent F,
      pendingAfter cfg (a ++ b) p = pendingAfter cfg b (pendingAfter cfg a p) := by
  induction a with
  | nil =>
    intro p
    rw [List.nil_append, pendingAfter_nil]
  | cons e es ih =>
    intro p
    rw [List.cons_append, pendingAfter_cons, ih, ← pendingAfter_cons]

/-- The pending reading after one pass of the loop body, whatever the
event. -/
theorem loopBody_pending (cfg : Config F) (hcodes : cfg.distinctCodes) (e : InputEvent)
    (st : ReadLoop F) :
    (loopBody cfg e st).self.mPendingEvent = pendingAfter cfg [e] st.self.mPendingEvent := by
  obtain ⟨hxy, hxz, hyz⟩ := hcodes
  have hne : EV_SYN ≠ EV_ABS := by decide
  unfold loopBody pendingAfter accumulated
  by_cases h1 : e.type = EV_ABS
  · have h2 : e.type ≠ EV_SYN := by rw [h1]; decide
    by_cases c1 : e.code = cfg.EVENT_TYPE_ACCEL_Y <;>
    by_cases c2 : e.code = cfg.EVENT_TYPE_ACCEL_X <;>
    by_cases c3 : e.code = cfg.EVENT_TYPE_ACCEL_Z <;>
    simp_all [lastValue, stamp, mul_comm]
  · by_cases h2 : e.type = EV_SYN
    · by_cases h3 : st.self.mEnabled = 0 <;> simp [h1, h2, h3, lastValue, stamp, hne]
    · simp [h1, h2, lastValue, stamp]

/-- On a disabled sensor the loop body only moves the pending reading. -/
theorem loopBody_disabled (cfg : Config F) (hcodes : cfg.distinctCodes) (e : InputEvent)
    (st : ReadLoop F) (hdis : st.self.mEnabled = 0) :
    loopBody cfg e st =
      { st with self := { st.self with
          mPendingEvent := pendingAfter cfg [e] st.self.mPendingEvent } } := by
  have hp := loopBody_pending cfg hcodes e st
  obtain ⟨⟨en, rd, pf, pe, dl⟩, c, d, n⟩ := st
  dsimp only at hdis hp ⊢
  subst hdis
  rw [← hp]
  unfold loopBody
  split_ifs <;> simp_all

/-- Draining on a disabled sensor consumes every buffered event and only
moves the pending reading. -/
theorem whileLoop_disabled (cfg : Config F) (hcodes : cfg.distinctCodes) :
    ∀ (evs : List InputEvent) (st : ReadLoop F),
      st.self.mEnabled = 0 → st.count ≠ 0 →
      whileLoop cfg evs st =
        { st with self := { st.self with
            mInputReader := []
            mPendingEvent := pendingAfter cfg evs st.self.mPendingEvent } } := by
  intro evs
  induction evs with
  | nil =>
    intro st _ _
    simp [whileLoop, pendingAfter_nil]
  | cons e es ih =>
    intro st hdis hcount
    have hnext := ih
      { st with self := { st.self with
          mPendingEvent := pendingAfter cfg [e] st.self.mPendingEvent } } hdis hcount
    rw [whileLoop, if_pos hcount, loopBody_disabled cfg hcodes e st hdis, hnext,
      pendingAfter_cons cfg e es]

/-- On a disabled sensor the loop body leaves the capacity, the output, the
count of readings and the enabled flag as they were. -/
theorem loopBody_disabled_frame (cfg : Config F) (e : InputEvent) (st : ReadLoop F)
    (hdis : st.self.mEnabled = 0) :
    (loopBody cfg e st).count = st.count ∧ (loopBody cfg e st).data = st.data ∧
    (loopBody cfg e st).numEventReceived = st.numEventReceived ∧
    (loopBody cfg e st).self.mEnabled = 0 := by
  unfold loopBody
  split_ifs <;> simp_all

/-- Draining on a disabled sensor emits nothing. -/
theorem whileLoop_disabled_frame (cfg : Config F) :
    ∀ (evs : List InputEvent) (st : ReadLoop F),
      st.self.mEnabled = 0 →
      (whileLoop cfg evs st).numEventReceived = st.numEventReceived ∧
      (whileLoop cfg evs st).self.mEnabled = 0 := by
  intro evs
  induction evs with
  | nil =>
    intro st hdis
    simp [whileLoop, hdis]
  | cons e es ih =>
    intro st hdis
    rw [whileLoop]
    split_ifs with hcount
    · obtain ⟨-, -, hn, he⟩ := loopBody_disabled_frame cfg e st hdis
      obtain ⟨h1, h2⟩ := ih (loopBody cfg e st) he
      exact ⟨h1.trans hn, h2⟩
    · exact ⟨rfl, hdis⟩

/-- When the drain leaves the sensor not enabled, no further fetch is made. -/
theorem again_of_not_enabled (cfg : Config F) (fetches : List FetchResult) (st : ReadLoop F)
    (trace : List SysCall)
    (h : (whileLoop cfg st.self.mInputReader st).self.mEnabled ≠ 1) :
    again cfg fetches st trace =
      some ⟨(whileLoop cfg st.self.mInputReader st).numEventReceived,
            (whileLoop cfg st.self.mInputReader st).self,
            (whileLoop cfg st.self.mInputReader st).data, trace⟩ := by
  cases fetches <;> simp [again, h]

/-- A disabled sensor never reports a positive count. -/
theorem readEvents_disabled_nonpos (cfg : Config F) (s : AccelSensor F)
    (count now : Int) (fetches : List FetchResult) (r : ReadOutcome F)
    (hdis : s.mEnabled = 0) (h : readEvents cfg s count now fetches = some r) :
    r.ret ≤ 0 := by
  unfold readEvents at h
  split_ifs at h with hc hp
  · cases h
    show -EINVAL ≤ 0
    decide
  · cases h
    simp [hdis]
  · cases fetches with
    | nil => simp at h
    | cons f rest =>
      dsimp only at h
      split_ifs at h with hneg
      · cases h
        exact le_of_lt hneg
      · obtain ⟨hn, he⟩ := whileLoop_disabled_frame cfg (fill s.mInputReader f).2
          ⟨{ s with mInputReader := (fill s.mInputReader f).2 }, count, [], 0⟩ hdis
        rw [again_of_not_enabled cfg rest _ _ (by dsimp only; rw [he]; decide)] at h
        cases h
        dsimp only
        rw [hn]

/-- C17: on a disabled sensor with no pending seed and a capacity of at
least 1, `readEvents` on any successfully fetched batch returns 0 after that
single fetch, writes no output slot, consumes every buffered event, and
leaves the pending reading accumulated over the batch, so that each axis
updated in the batch has its latest scaled and remapped value; and whatever
the state, the capacity and the fetches, a disabled sensor never returns a
positive count. -/
theorem C17_readEvents_disabled (cfg : Config F) (s : AccelSensor F)
    (count now : Int) (batch : List InputEvent) (rest : List FetchResult)
    (hcodes : cfg.distinctCodes)
    (hdis : s.mEnabled = 0) (hpend : s.mHasPendingEvent = false) (hcount : 1 ≤ count) :
    readEvents cfg s count now (.events batch :: rest) =
      some
        { ret := 0
          state := { s with
            mInputReader := []
            mPendingEvent :=
              pendingAfter cfg batch (pendingAfter cfg s.mInputReader s.mPendingEvent) }
          data := []
          trace := [.fillReader batch.length] } ∧
    (∀ (q : SensorsEvent F) (v : Int), lastValue cfg.EVENT_TYPE_ACCEL_Y batch = some v →
      (pendingAfter cfg batch q).data0 = cfg.CONVERT_A_Y * (v : F)) ∧
    (∀ (q : SensorsEvent F) (v : Int), lastValue cfg.EVENT_TYPE_ACCEL_X batch = some v →
      (pendingAfter cfg batch q).data1 = -(cfg.CONVERT_A_X * (v : F))) ∧
    (∀ (q : SensorsEvent F) (v : Int), lastValue cfg.EVENT_TYPE_ACCEL_Z batch = some v →
      (pendingAfter cfg batch q).data2 = cfg.CONVERT_A_Z * (v : F)) ∧
    (∀ (s1 : AccelSensor F) (count1 now1 : Int) (fetches1 : List FetchResult)
        (r1 : ReadOutcome F), s1.mEnabled = 0 →
      readEvents cfg s1 count1 now1 fetches1 = some r1 → r1.ret ≤ 0) := by
  have hc0 : count ≠ 0 := by omega
  have hc1 : ¬ count < 1 := by omega
  have hlen : ¬ ((batch.length : Int) < 0) := by omega
  refine ⟨?_, ?_, ?_, ?_, ?_⟩
  · have hloop := whileLoop_disabled cfg hcodes (s.mInputReader ++ batch)
      ⟨{ s with mInputReader := s.mInputReader ++ batch }, count, [], 0⟩ hdis hc0
    unfold readEvents
    rw [if_neg hc1, hpend]
    dsimp only [fill]
    rw [if_neg (by decide), if_neg hlen]
    rw [hpend] at hloop
    rw [again_of_not_enabled cfg rest _ _ (by dsimp only; rw [hloop, hdis]; decide)]
    dsimp only
    rw [hloop]
    dsimp only
    rw [pendingAfter_append]
  · intro q v hv
    simp [pendingAfter, accumulated, hv]
  · intro q v hv
    simp [pendingAfter, accumulated, hv]
  · intro q v hv
    simp [pendingAfter, accumulated, hv]
  · intro s1 count1 now1 fetches1 r1 h1 h2
    exact readEvents_disabled_nonpos cfg s1 count1 now1 fetches1 r1 h1 h2

/-- C17 on the disabled sensor: an X update, a marker and a Y update give
the return value 0, no output, and the pending reading (6, -5, 0) stamped by
the marker. -/
theorem C17_readEvents_disabled_witness :
    unitConfig.distinctCodes ∧ disabledState.mEnabled = 0 ∧
    disabledState.mHasPendingEvent = false ∧
    readEvents unitConfig disabledState 2 0
        [.events [absEvent 0 5, synEvent 3, absEvent 1 6]] =
      some
        { ret := 0
          state := { disabledState with
            mPendingEvent := ⟨104, 0, 1, 6, -5, 0, 3000000000⟩ }
          data := []
          trace := [.fillReader 3] } :=
  ⟨by decide, by decide, by decide,
   (C17_readEvents_disabled unitConfig disabledState 2 0
      [absEvent 0 5, synEvent 3, absEvent 1 6] [] (by decide) (by decide) (by decide)
      (by decide)).1.trans (by decide)⟩

/-- With no capacity left the loop consumes nothing. -/
theorem whileLoop_of_no_capacity (cfg : Config F) (evs : List InputEvent) (st : ReadLoop F)
    (hcount : st.count = 0) :
    whileLoop cfg evs st = { st with self := { st.self with mInputReader := evs } } := by
  cases evs with
  | nil => rfl
  | cons e es => rw [whileLoop, if_neg (by simp [hcount])]

/-- On an enabled sensor an event that is not a marker only moves the pending
reading. -/
theorem loopBody_enabled_of_not_syn (cfg : Config F) (hcodes : cfg.distinctCodes)
    (e : InputEvent) (st : ReadLoop F) (he : e.type ≠ EV_SYN) :
    loopBody cfg e st =
      { st with self := { st.self with
          mPendingEvent := pendingAfter cfg [e] st.self.mPendingEvent } } := by
  have hp := loopBody_pending cfg hcodes e st
  rw [← hp]
  unfold loopBody
  split_ifs <;> simp_all

/-- On an enabled sensor a marker met with capacity left stamps the pending
reading, copies it to the next output slot and takes one unit of capacity. -/
theorem loopBody_enabled_of_syn (cfg : Config F) (hcodes : cfg.distinctCodes)
    (e : InputEvent) (st : ReadLoop F) (he : e.type = EV_SYN)
    (hen : st.self.mEnabled ≠ 0) :
    loopBody cfg e st =
      { self := { st.self with
          mPendingEvent := pendingAfter cfg [e] st.self.mPendingEvent }
        count := st.count - 1
        data := st.data ++ [pendingAfter cfg [e] st.self.mPendingEvent]
        numEventReceived := st.numEventReceived + 1 } := by
  have hp := loopBody_pending cfg hcodes e st
  have hne : EV_SYN ≠ EV_ABS := by decide
  rw [← hp]
  unfold loopBody
  simp [he, hne, hen]

theorem markerCount_cons_syn (e : InputEvent) (es : List InputEvent) (he : e.type = EV_SYN) :
    markerCount (e :: es) = markerCount es + 1 := by
  simp [markerCount, he]

theorem markerCount_cons_not_syn (e : InputEvent) (es : List InputEvent)
    (he : e.type ≠ EV_SYN) : markerCount (e :: es) = markerCount es := by
  simp [markerCount, he]

theorem throughMarker_cons_not_syn (k : Nat) (e : InputEvent) (es : List InputEvent)
    (he : e.type ≠ EV_SYN) : throughMarker k (e :: es) = e :: throughMarker k es := by
  simp [throughMarker, he]

theorem throughMarker_zero_syn (e : InputEvent) (es : List InputEvent)
    (he : e.type = EV_SYN) : throughMarker 0 (e :: es) = [e] := by
  simp [throughMarker, he]

theorem throughMarker_succ_syn (k : Nat) (e : InputEvent) (es : List InputEvent)
    (he : e.type = EV_SYN) : throughMarker (k + 1) (e :: es) = e :: throughMarker k es := by
  simp [throughMarker, he]

theorem afterMarker_cons_not_syn (k : Nat) (e : InputEvent) (es : List InputEvent)
    (he : e.type ≠ EV_SYN) : afterMarker k (e :: es) = afterMarker k es := by
  simp [afterMarker, he]

theorem afterMarker_zero_syn (e : InputEvent) (es : List InputEvent)
    (he : e.type = EV_SYN) : afterMarker 0 (e :: es) = es := by
  simp [afterMarker, he]

theorem afterMarker_succ_syn (k : Nat) (e : InputEvent) (es : List InputEvent)
    (he : e.type = EV_SYN) : afterMarker (k + 1) (e :: es) = afterMarker k es := by
  simp [afterMarker, he]

/-- The drain on an enabled sensor with capacity `n + 1`: it consumes the
events up to marker number `n`, leaves those after it, and writes one slot
per marker met. -/
theorem whileLoop_enabled (cfg : Config F) (hcodes : cfg.distinctCodes) :
    ∀ (evs : List InputEvent) (st : ReadLoop F) (n : Nat),
      st.count = (n : Int) + 1 → st.self.mEnabled ≠ 0 →
      whileLoop cfg evs st =
        { self := { st.self with
            mInputReader := afterMarker n evs
            mPendingEvent := pendingAfter cfg (throughMarker n evs) st.self.mPendingEvent }
          count := (n : Int) + 1 - (min (n + 1) (markerCount evs) : Nat)
          data := st.data ++ (List.range (min (n + 1) (markerCount evs))).map
            (fun k => pendingAfter cfg (throughMarker k evs) st.self.mPendingEvent)
          numEventReceived := st.numEventReceived + (min (n + 1) (markerCount evs) : Nat) } := by
  intro evs
  induction evs with
  | nil =>
    intro st n hcount hen
    simp [whileLoop, afterMarker, throughMarker, markerCount, pendingAfter_nil, hcount]
  | cons e es ih =>
    intro st n hcount hen
    have hc0 : st.count ≠ 0 := by omega
    rw [whileLoop, if_pos hc0]
    by_cases he : e.type = EV_SYN
    · rw [loopBody_enabled_of_syn cfg hcodes e st he hen, markerCount_cons_syn e es he,
        Nat.add_min_add_right]
      have hdata : ∀ m : Nat,
          (List.range (m + 1)).map
            (fun k => pendingAfter cfg (throughMarker k (e :: es)) st.self.mPendingEvent) =
          pendingAfter cfg [e] st.self.mPendingEvent ::
            (List.range m).map (fun k => pendingAfter cfg (throughMarker k es)
              (pendingAfter cfg [e] st.self.mPendingEvent)) := by
        intro m
        rw [List.range_succ_eq_map, List.map_cons, List.map_map,
          throughMarker_zero_syn e es he]
        congr 1
        apply List.map_congr_left
        intro k _
        show pendingAfter cfg (throughMarker (k + 1) (e :: es)) st.self.mPendingEvent = _
        rw [throughMarker_succ_syn k e es he, pendingAfter_cons]
      rw [hdata]
      cases n with
      | zero =>
        rw [whileLoop_of_no_capacity cfg es _ (by dsimp only; omega),
          throughMarker_zero_syn e es he, afterMarker_zero_syn e es he]
        simp [hcount]
      | succ j =>
        have hnext := ih
          { self := { st.self with
              mPendingEvent := pendingAfter cfg [e] st.self.mPendingEvent }
            count := st.count - 1
            data := st.data ++ [pendingAfter cfg [e] st.self.mPendingEvent]
            numEventReceived := st.numEventReceived + 1 }
          j (by dsimp only; rw [hcount]; push_cast; ring) hen
        rw [hnext, throughMarker_succ_syn j e es he, afterMarker_succ_syn j e es he,
          pendingAfter_cons cfg e (throughMarker j es)]
        dsimp only
        congr 1
        · push_cast; ring
        · simp
        · push_cast; ring
    · have hnext := ih
        { st with self := { st.self with
            mPendingEvent := pendingAfter cfg [e] st.self.mPendingEvent } } n hcount hen
      have hfun : (fun k => pendingAfter cfg (throughMarker k (e :: es)) st.self.mPendingEvent) =
          (fun k => pendingAfter cfg (throughMarker k es)
            (pendingAfter cfg [e] st.self.mPendingEvent)) := by
        funext k
        rw [throughMarker_cons_not_syn k e es he, pendingAfter_cons]
      rw [loopBody_enabled_of_not_syn cfg hcodes e st he, hnext,
        markerCount_cons_not_syn e es he, throughMarker_cons_not_syn n e es he,
        afterMarker_cons_not_syn n e es he, pendingAfter_cons cfg e (throughMarker n es), hfun]

/-- The events up to an existing marker number `k` end with that marker, so
the pending reading is stamped with its time. -/
theorem stamp_throughMarker (cfg : Config F) :
    ∀ (evs : List InputEvent) (k : Nat) (t : Int), k < markerCount evs →
      ∃ marker, nthMarker k evs = some marker ∧ marker.type = EV_SYN ∧
        stamp cfg (throughMarker k evs) t = cfg.timevalToNano marker.time := by
  intro evs
  induction evs with
  | nil =>
    intro k t hk
    simp [markerCount] at hk
  | cons e es ih =>
    intro k t hk
    by_cases he : e.type = EV_SYN
    · rw [markerCount_cons_syn e es he] at hk
      cases k with
      | zero =>
        exact ⟨e, by simp [nthMarker, he], he, by simp [throughMarker, stamp, he]⟩
      | succ j =>
        obtain ⟨marker, h1, h2, h3⟩ := ih j (cfg.timevalToNano e.time) (by omega)
        refine ⟨marker, by simp [nthMarker, he, h1], h2, ?_⟩
        rw [throughMarker_succ_syn j e es he, stamp, if_pos he, h3]
    · rw [markerCount_cons_not_syn e es he] at hk
      obtain ⟨marker, h1, h2, h3⟩ := ih k t hk
      refine ⟨marker, by simp [nthMarker, he, h1], h2, ?_⟩
      rw [throughMarker_cons_not_syn k e es he, stamp, if_neg he, h3]

/-- For an existing marker number `k`, the pending reading after the events
up to that marker is the reading expected in slot `k`. -/
theorem pendingAfter_throughMarker (cfg : Config F) (evs : List InputEvent)
    (p : SensorsEvent F) (k : Nat) (hk : k < markerCount evs) :
    pendingAfter cfg (throughMarker k evs) p = slotAt cfg evs p k := by
  obtain ⟨marker, h1, -, h3⟩ := stamp_throughMarker cfg evs k p.timestamp hk
  unfold pendingAfter slotAt
  rw [h1, h3]

/-- C18 (amended): while the sensor is enabled with no pending seed and the
capacity `c` is at least 1, if the events the reader holds after the fetch
(those left unconsumed by earlier calls followed by the fetched batch)
contain `m ≥ 1` synchronization markers, then `readEvents` returns
`min c m` after that single fetch and writes exactly the output slots
`0 .. min c m - 1`; slot `k` holds the vector accumulated from all axis
updates up to marker number `k`, with that marker's time in nanoseconds;
the events after the `c`-th marker stay in the reader. -/
theorem C18_readEvents_min_capacity_markers (cfg : Config F) (s : AccelSensor F)
    (count now : Int) (batch : List InputEvent) (rest : List FetchResult)
    (hcodes : cfg.distinctCodes)
    (hen : s.mEnabled ≠ 0) (hpend : s.mHasPendingEvent = false) (hcount : 1 ≤ count)
    (hm : 1 ≤ markerCount (s.mInputReader ++ batch)) :
    ∃ r, readEvents cfg s count now (.events batch :: rest) = some r ∧
      r.ret = min count (markerCount (s.mInputReader ++ batch) : Int) ∧
      r.data = (List.range (min count.toNat (markerCount (s.mInputReader ++ batch)))).map
        (slotAt cfg (s.mInputReader ++ batch) s.mPendingEvent) ∧
      r.state.mInputReader = afterMarker (count.toNat - 1) (s.mInputReader ++ batch) ∧
      r.state.mPendingEvent =
        pendingAfter cfg (throughMarker (count.toNat - 1) (s.mInputReader ++ batch))
          s.mPendingEvent ∧
      r.trace = [.fillReader batch.length] ∧
      r.state.mEnabled = s.mEnabled ∧ r.state.mHasPendingEvent = false ∧
      r.state.prev_delay_ms = s.prev_delay_ms := by
  have hc1 : ¬ count < 1 := by omega
  have hlen : ¬ ((batch.length : Int) < 0) := by omega
  obtain ⟨n, hn⟩ : ∃ n : Nat, count = (n : Int) + 1 := ⟨(count - 1).toNat, by omega⟩
  have htoNat : count.toNat = n + 1 := by omega
  have hloop := whileLoop_enabled cfg hcodes (s.mInputReader ++ batch)
    ⟨{ s with mInputReader := s.mInputReader ++ batch }, count, [], 0⟩ n hn hen
  have hmin : 1 ≤ min (n + 1) (markerCount (s.mInputReader ++ batch)) := by
    rw [Nat.le_min]
    exact ⟨by omega, hm⟩
  have hnum : (whileLoop cfg (s.mInputReader ++ batch)
      ⟨{ s with mInputReader := s.mInputReader ++ batch }, count, [], 0⟩).numEventReceived
      ≠ 0 := by
    rw [hloop]
    dsimp only
    omega
  have hread : readEvents cfg s count now (.events batch :: rest) =
      some ⟨(whileLoop cfg (s.mInputReader ++ batch)
              ⟨{ s with mInputReader := s.mInputReader ++ batch }, count, [], 0⟩).numEventReceived,
            (whileLoop cfg (s.mInputReader ++ batch)
              ⟨{ s with mInputReader := s.mInputReader ++ batch }, count, [], 0⟩).self,
            (whileLoop cfg (s.mInputReader ++ batch)
              ⟨{ s with mInputReader := s.mInputReader ++ batch }, count, [], 0⟩).data,
            [.fillReader batch.length]⟩ := by
    unfold readEvents
    rw [if_neg hc1, hpend]
    dsimp only [fill]
    rw [if_neg (by decide), if_neg hlen]
    rw [hpend] at hnum
    rw [again_of_emitted cfg rest _ _ hnum]
  refine ⟨_, hread, ?_, ?_, ?_, ?_, rfl, ?_, ?_, ?_⟩
  · rw [hloop]
    dsimp only
    rw [hn]
    push_cast
    simp
  · rw [hloop, htoNat]
    dsimp only
    rw [List.nil_append]
    apply List.map_congr_left
    intro k hk
    rw [List.mem_range] at hk
    exact pendingAfter_throughMarker cfg _ _ k (lt_of_lt_of_le hk (Nat.min_le_right _ _))
  · rw [hloop, htoNat]
    rfl
  · rw [hloop, htoNat]
    rfl
  · rw [hloop]
  · rw [hloop]
    exact hpend
  · rw [hloop]

/-- C18 with capacity 2 and three markers fetched: two slots are written,
(0, -1, 0) stamped 1 s and (2, -1, 0) stamped 2 s, and the events after the
second marker stay in the reader. -/
theorem C18_readEvents_min_capacity_markers_witness :
    unitConfig.distinctCodes ∧ enabledState.mEnabled ≠ 0 ∧
    enabledState.mHasPendingEvent = false ∧
    1 ≤ markerCount (enabledState.mInputReader ++
      [absEvent 0 1, synEvent 1, absEvent 1 2, synEvent 2, absEvent 2 3, synEvent 3,
       absEvent 0 9]) ∧
    ∃ r, readEvents unitConfig enabledState 2 0
          [.events [absEvent 0 1, synEvent 1, absEvent 1 2, synEvent 2, absEvent 2 3,
                    synEvent 3, absEvent 0 9]] = some r ∧
      r.ret = 2 ∧
      r.data = [⟨104, 0, 1, 0, -1, 0, 1000000000⟩, ⟨104, 0, 1, 2, -1, 0, 2000000000⟩] ∧
      r.state.mInputReader = [absEvent 2 3, synEvent 3, absEvent 0 9] :=
  ⟨by decide, by decide, by decide, by decide,
   match C18_readEvents_min_capacity_markers unitConfig enabledState 2 0
      [absEvent 0 1, synEvent 1, absEvent 1 2, synEvent 2, absEvent 2 3, synEvent 3,
       absEvent 0 9] [] (by decide) (by decide) (by decide) (by decide) (by decide) with
   | ⟨r, h1, h2, h3, h4, _⟩ =>
     ⟨r, h1, h2.trans (by decide), h3.trans (by decide), h4.trans (by decide)⟩⟩

/-- C18 as stated fails when an earlier call left a marker in the reader:
with capacity 3 and a fetched batch holding one marker, `readEvents` returns
2, not min(3, 1) = 1, and writes two slots. -/
theorem C18_counterexample :
    leftoverState.mEnabled = 1 ∧ leftoverState.mHasPendingEvent = false ∧
    leftoverState.mInputReader = [synEvent 2] ∧
    markerCount [absEvent 0 1, synEvent 5] = 1 ∧
    readEvents unitConfig leftoverState 3 0 [.events [absEvent 0 1, synEvent 5]] =
      some
        { ret := 2
          state := { enabledState with
            mPendingEvent := ⟨104, 0, 1, 0, -1, 0, 5000000000⟩ }
          data := [⟨104, 0, 1, 0, 0, 0, 2000000000⟩, ⟨104, 0, 1, 0, -1, 0, 5000000000⟩]
          trace := [.fillReader 2] } := by
  decide

/-! ## The retry after a batch without marker -/

/-- With capacity and no pending seed, a successful first fetch leads to the
code at the label `again`, with the batch appended to the reader. -/
theorem readEvents_of_fetched (cfg : Config F) (s : AccelSensor F) (count now : Int)
    (first : List InputEvent) (fetches : List FetchResult)
    (hpend : s.mHasPendingEvent = false) (hcount : 1 ≤ count) :
    readEvents cfg s count now (.events first :: fetches) =
      again cfg fetches
        ⟨{ s with mInputReader := s.mInputReader ++ first }, count, [], 0⟩
        [.fillReader first.length] := by
  have hc1 : ¬ count < 1 := by omega
  have hlen : ¬ ((first.length : Int) < 0) := by omega
  unfold readEvents
  rw [if_neg hc1, hpend]
  dsimp only [fill]
  rw [if_neg (by decide), if_neg hlen]

/-- On an enabled sensor a marker takes one unit of capacity and adds one
reading. -/
theorem loopBody_syn_frame (cfg : Config F) (e : InputEvent) (st : ReadLoop F)
    (he : e.type = EV_SYN) (hen : st.self.mEnabled ≠ 0) :
    (loopBody cfg e st).count = st.count - 1 ∧
    (loopBody cfg e st).numEventReceived = st.numEventReceived + 1 ∧
    (loopBody cfg e st).data.length = st.data.length + 1 ∧
    (loopBody cfg e st).self.mEnabled = st.self.mEnabled := by
  have hne : EV_SYN ≠ EV_ABS := by decide
  unfold loopBody
  simp [he, hne, hen]

/-- The number of readings the drain emits on an enabled sensor with
capacity `n + 1`. -/
theorem whileLoop_enabled_emitted (cfg : Config F) :
    ∀ (evs : List InputEvent) (st : ReadLoop F) (n : Nat),
      st.count = (n : Int) + 1 → st.self.mEnabled ≠ 0 →
      (whileLoop cfg evs st).numEventReceived =
        st.numEventReceived + (min (n + 1) (markerCount evs) : Nat) ∧
      (whileLoop cfg evs st).data.length =
        st.data.length + min (n + 1) (markerCount evs) ∧
      (whileLoop cfg evs st).self.mEnabled = st.self.mEnabled := by
  intro evs
  induction evs with
  | nil =>
    intro st n hcount hen
    simp [whileLoop, markerCount]
  | cons e es ih =>
    intro st n hcount hen
    have hc0 : st.count ≠ 0 := by omega
    rw [whileLoop, if_pos hc0]
    by_cases he : e.type = EV_SYN
    · obtain ⟨hc, hn, hd, hm⟩ := loopBody_syn_frame cfg e st he hen
      rw [markerCount_cons_syn e es he, Nat.add_min_add_right]
      cases n with
      | zero =>
        rw [whileLoop_of_no_capacity cfg es _ (by rw [hc]; omega)]
        dsimp only
        rw [hn, hd, hm]
        simp
      | succ j =>
        obtain ⟨h1, h2, h3⟩ := ih (loopBody cfg e st) j (by rw [hc, hcount]; push_cast; ring)
          (by rw [hm]; exact hen)
        rw [h1, h2, h3, hn, hd, hm]
        refine ⟨?_, ?_, rfl⟩
        · push_cast; ring
        · omega
    · obtain ⟨hc, hd, hn, hm, -, -⟩ := loopBody_of_not_syn cfg e st he
      obtain ⟨h1, h2, h3⟩ := ih (loopBody cfg e st) n (by rw [hc]; exact hcount)
        (by rw [hm]; exact hen)
      rw [markerCount_cons_not_syn e es he, h1, h2, h3, hn, hd, hm]
      exact ⟨rfl, rfl, rfl⟩

/-- From the label `again`, with nothing emitted yet, the sensor enabled and
no marker buffered: a further fetch is made whatever comes next, and a
non-empty batch sends the code back to the label with that batch as the
reader's content. -/
theorem again_refetch (cfg : Config F) (st : ReadLoop F) (trace : List SysCall)
    (hcount : st.count ≠ 0) (hnum : st.numEventReceived = 0) (hen : st.self.mEnabled = 1)
    (hbuf : ∀ e ∈ st.self.mInputReader, e.type ≠ EV_SYN) :
    again cfg [] st trace = none ∧
    (∀ (b : List InputEvent) (rest : List FetchResult), b ≠ [] →
      again cfg (.events b :: rest) st trace =
        again cfg rest
          { whileLoop cfg st.self.mInputReader st with
            self := { (whileLoop cfg st.self.mInputReader st).self with mInputReader := b } }
          (trace ++ [.fillReader b.length])) ∧
    (∀ (f : FetchResult) (rest : List FetchResult) (r : ReadOutcome F),
      again cfg (f :: rest) st trace = some r →
      ∃ n t, r.trace = trace ++ SysCall.fillReader n :: t) := by
  obtain ⟨-, -, hn, he, -, -, hr⟩ :=
    whileLoop_of_no_marker cfg st.self.mInputReader st hbuf hcount
  rw [hnum] at hn
  rw [hen] at he
  refine ⟨?_, ?_, ?_⟩
  · rw [again, if_pos ⟨hn, he⟩]
  · intro b rest hb
    have hlen : (b.length : Int) ≠ 0 := by
      have : b.length ≠ 0 := by simpa using hb
      exact_mod_cast this
    rw [again]
    dsimp only [fill]
    rw [if_pos ⟨hn, he⟩, if_pos hlen, hr, List.nil_append]
  · intro f rest r h
    rw [again] at h
    dsimp only at h
    rw [if_pos ⟨hn, he⟩] at h
    split_ifs at h
    · obtain ⟨t, ht⟩ := again_trace cfg _ _ _ r h
      exact ⟨(fill (whileLoop cfg st.self.mInputReader st).self.mInputReader f).1, t,
        by rw [ht, List.append_assoc]; rfl⟩
    · cases h
      exact ⟨(fill (whileLoop cfg st.self.mInputReader st).self.mInputReader f).1, [], rfl⟩

/-- C4 (amended): while the sensor is enabled with no pending seed and the
capacity is at least 1, if the events the reader holds after the first fetch
(those left unconsumed by earlier calls followed by the fetched batch)
contain no synchronization marker, then `readEvents` performs a further
fetch, whatever that fetch brings.  When the re-fetched batch holds a marker,
no second re-fetch is made and the call returns the number of readings
emitted, the smaller of the capacity and the number of markers in that
batch.  When the re-fetched batch is empty, no second re-fetch is made and
the call returns 0 with no error.  When the re-fetched batch is non-empty
and holds no marker, the call fetches again; it goes on so after every
further non-empty batch without marker, and returns 0 with no error and no
output slot written once a re-fetch yields an empty batch. -/
theorem C4_readEvents_refetch (cfg : Config F) (s : AccelSensor F)
    (count now : Int) (first : List InputEvent)
    (hen : s.mEnabled = 1) (hpend : s.mHasPendingEvent = false) (hcount : 1 ≤ count)
    (hfirst : ∀ e ∈ s.mInputReader ++ first, e.type ≠ EV_SYN) :
    readEvents cfg s count now [.events first] = none ∧
    (∀ (f : FetchResult) (rest : List FetchResult) (r : ReadOutcome F),
      readEvents cfg s count now (.events first :: f :: rest) = some r →
      ∃ n t, r.trace = SysCall.fillReader first.length :: SysCall.fillReader n :: t) ∧
    (∀ (second : List InputEvent) (rest : List FetchResult), 1 ≤ markerCount second →
      ∃ r, readEvents cfg s count now (.events first :: .events second :: rest) = some r ∧
        r.ret = min count (markerCount second : Int) ∧ 1 ≤ r.ret ∧
        r.data.length = min count.toNat (markerCount second) ∧
        r.trace = [.fillReader first.length, .fillReader second.length] ∧
        fetchCount r.trace = 2) ∧
    (∀ (second : List InputEvent), second ≠ [] → (∀ e ∈ second, e.type ≠ EV_SYN) →
      readEvents cfg s count now [.events first, .events second] = none ∧
      ∀ (f : FetchResult) (rest : List FetchResult) (r : ReadOutcome F),
        readEvents cfg s count now (.events first :: .events second :: f :: rest) = some r →
        ∃ n t, r.trace = SysCall.fillReader first.length ::
          SysCall.fillReader second.length :: SysCall.fillReader n :: t) ∧
    (∀ (mids : List (List InputEvent)) (rest : List FetchResult),
      (∀ b ∈ mids, b ≠ [] ∧ ∀ e ∈ b, e.type ≠ EV_SYN) →
      ∃ r, readEvents cfg s count now
            (.events first :: (mids.map FetchResult.events ++ .events [] :: rest)) = some r ∧
        r.ret = 0 ∧ r.data = [] ∧
        r.trace = .fillReader first.length ::
          (mids.map (fun b => SysCall.fillReader b.length) ++ [.fillReader 0]) ∧
        fetchCount r.trace = mids.length + 2 ∧
        r.state.mEnabled = 1 ∧ r.state.mHasPendingEvent = false ∧
        r.state.mInputReader = [] ∧ r.state.prev_delay_ms = s.prev_delay_ms) := by
  have hc0 : count ≠ 0 := by omega
  obtain ⟨n, hn⟩ : ∃ n : Nat, count = (n : Int) + 1 := ⟨(count - 1).toNat, by omega⟩
  have htoNat : count.toNat = n + 1 := by omega
  obtain ⟨hA0, hA1, hA2⟩ := again_refetch cfg
    ⟨{ s with mInputReader := s.mInputReader ++ first }, count, [], 0⟩
    [.fillReader first.length] hc0 rfl hen hfirst
  obtain ⟨hc, hd, hnum, hme, -, -, -⟩ := whileLoop_of_no_marker cfg (s.mInputReader ++ first)
    ⟨{ s with mInputReader := s.mInputReader ++ first }, count, [], 0⟩ hfirst hc0
  dsimp only at hA1 hc hd hnum hme
  -- the locals when the code is back at the label with the re-fetched batch
  have hback : ∀ second : List InputEvent, ∃ st2 : ReadLoop F,
      st2 = { whileLoop cfg (s.mInputReader ++ first)
                ⟨{ s with mInputReader := s.mInputReader ++ first }, count, [], 0⟩ with
              self := { (whileLoop cfg (s.mInputReader ++ first)
                ⟨{ s with mInputReader := s.mInputReader ++ first }, count, [], 0⟩).self with
                mInputReader := second } } ∧
      st2.count = count ∧ st2.data = [] ∧ st2.numEventReceived = 0 ∧
      st2.self.mEnabled = 1 ∧ st2.self.mInputReader = second := by
    intro second
    exact ⟨_, rfl, hc, hd, hnum, hme.trans hen, rfl⟩
  refine ⟨?_, ?_, ?_, ?_, ?_⟩
  · rw [readEvents_of_fetched cfg s count now first [] hpend hcount]
    exact hA0
  · intro f rest r h
    rw [readEvents_of_fetched cfg s count now first (f :: rest) hpend hcount] at h
    obtain ⟨k, t, ht⟩ := hA2 f rest r h
    exact ⟨k, t, ht⟩
  · intro second rest hm
    have hne : second ≠ [] := by
      intro h0
      rw [h0] at hm
      simp [markerCount] at hm
    obtain ⟨st2, hst2, h2c, h2d, h2n, h2e, h2r⟩ := hback second
    obtain ⟨e1raw, e2raw, -⟩ := whileLoop_enabled_emitted cfg st2.self.mInputReader st2 n
      (by rw [h2c, hn]) (by rw [h2e]; decide)
    have e1 : (whileLoop cfg st2.self.mInputReader st2).numEventReceived =
        ((min (n + 1) (markerCount second) : Nat) : Int) := by
      rw [e1raw, h2n, h2r, zero_add]
    have e2 : (whileLoop cfg st2.self.mInputReader st2).data.length =
        min (n + 1) (markerCount second) := by
      rw [e2raw, h2d, h2r, List.length_nil, Nat.zero_add]
    have hmin : 1 ≤ min (n + 1) (markerCount second) := by
      rw [Nat.le_min]
      exact ⟨by omega, hm⟩
    rw [readEvents_of_fetched cfg s count now first _ hpend hcount, hA1 second rest hne,
      ← hst2, again_of_emitted cfg rest st2 _ (by rw [e1]; omega)]
    refine ⟨_, rfl, ?_, ?_, ?_, rfl, rfl⟩
    · dsimp only
      rw [e1, hn]
      push_cast
      simp
    · dsimp only
      rw [e1]
      omega
    · dsimp only
      rw [e2, htoNat]
  · intro second hne hsecond
    obtain ⟨st2, hst2, h2c, -, h2n, h2e, h2r⟩ := hback second
    obtain ⟨hB0, -, hB2⟩ := again_refetch cfg st2
      ([.fillReader first.length] ++ [.fillReader second.length])
      (by rw [h2c]; exact hc0) h2n h2e (by rw [h2r]; exact hsecond)
    refine ⟨?_, ?_⟩
    · rw [readEvents_of_fetched cfg s count now first _ hpend hcount, hA1 second [] hne,
        ← hst2]
      exact hB0
    · intro f rest r h
      rw [readEvents_of_fetched cfg s count now first _ hpend hcount,
        hA1 second (f :: rest) hne, ← hst2] at h
      obtain ⟨k, t, ht⟩ := hB2 f rest r h
      exact ⟨k, t, ht⟩
  · intro mids rest hmids
    obtain ⟨r, hr, h1, h2, h3, h4, h5, h6, h7⟩ :=
      again_of_marker_free cfg rest mids
        ⟨{ s with mInputReader := s.mInputReader ++ first }, count, [], 0⟩
        [.fillReader first.length] hc0 rfl hen hfirst hmids
    refine ⟨r, ?_, h1, h2, by simpa using h3, ?_, h4, by simpa [hpend] using h6, h5, h7⟩
    · rw [readEvents_of_fetched cfg s count now first _ hpend hcount]
      exact hr
    · rw [h3, fetchCount_append, fetchCount_append, fetchCount_map_fill]
      simp [fetchCount]
      omega

/-- C4 on the enabled sensor with capacity 1 and a first batch holding one X
update: a single scripted fetch is not enough; a re-fetched marker ends the
call with 1 after two fetches; a re-fetched Y update calls for a third
fetch; and a re-fetched Y update followed by an empty batch ends the call
with 0 after three fetches. -/
theorem C4_readEvents_refetch_witness :
    enabledState.mEnabled = 1 ∧ enabledState.mHasPendingEvent = false ∧
    (∀ e ∈ enabledState.mInputReader ++ [absEvent 0 1], e.type ≠ EV_SYN) ∧
    readEvents unitConfig enabledState 1 0 [.events [absEvent 0 1]] = none ∧
    (∃ r, readEvents unitConfig enabledState 1 0
            [.events [absEvent 0 1], .events [synEvent 9]] = some r ∧
      r.ret = 1 ∧ r.trace = [.fillReader 1, .fillReader 1] ∧ fetchCount r.trace = 2) ∧
    readEvents unitConfig enabledState 1 0
        [.events [absEvent 0 1], .events [absEvent 1 2]] = none ∧
    (∃ r, readEvents unitConfig enabledState 1 0
            [.events [absEvent 0 1], .events [absEvent 1 2], .events []] = some r ∧
      r.ret = 0 ∧ r.data = [] ∧
      r.trace = [.fillReader 1, .fillReader 1, .fillReader 0] ∧ fetchCount r.trace = 3) :=
  have hall := C4_readEvents_refetch unitConfig enabledState 1 0 [absEvent 0 1]
    (by decide) (by decide) (by decide) (by decide)
  ⟨by decide, by decide, by decide, hall.1,
   match hall.2.2.1 [synEvent 9] [] (by decide) with
   | ⟨r, h1, h2, _, _, h5, h6⟩ => ⟨r, h1, h2.trans (by decide), h5, h6⟩,
   (hall.2.2.2.1 [absEvent 1 2] (by decide) (by decide)).1,
   match hall.2.2.2.2 [[absEvent 1 2]] [] (by decide) with
   | ⟨r, h1, h2, h3, h4, h5, _⟩ => ⟨r, h1, h2, h3, h4, h5⟩⟩

end Devkit8600
